import Mathlib

/-!
Verification of the sciagent repository (Python) against its specification.

The Python sources are shallowly embedded: pure functions become Lean
functions, stateful code becomes explicit state passing, Python floats are
modelled as rationals, Python dicts as insertion-ordered string-keyed
association lists (the dicts used by this code base are all string-keyed).
Each definition carries a reference to the source function it embeds.
-/

namespace SciAgent

/-! ### Kernel-computable rational arithmetic

The standard `+ - * /` on `ℚ` do not reduce inside the kernel, so the
embedding routes all rational arithmetic through `mkRat`-based wrappers
(provably equal to the standard operations; see the bridge lemmas in the
theorem section). -/

/-- `a + b` on rationals, via `mkRat`. -/
def qAdd (a b : ℚ) : ℚ := mkRat (a.num * b.den + b.num * a.den) (a.den * b.den)

/-- `a - b` on rationals, via `mkRat`. -/
def qSub (a b : ℚ) : ℚ := mkRat (a.num * b.den - b.num * a.den) (a.den * b.den)

/-- `a * b` on rationals, via `mkRat`. -/
def qMul (a b : ℚ) : ℚ := mkRat (a.num * b.num) (a.den * b.den)

/-- `a⁻¹` on rationals (0 for 0), via `mkRat`. -/
def qInv (b : ℚ) : ℚ :=
  if b.num < 0 then mkRat (-(b.den : Int)) b.num.natAbs else mkRat b.den b.num.natAbs

/-- `a / b` on rationals (0 for division by 0 — callers guard), via `mkRat`. -/
def qDiv (a b : ℚ) : ℚ := qMul a (qInv b)

/-- `-a` on rationals. -/
def qNeg (a : ℚ) : ℚ := mkRat (-a.num) a.den

/-- `abs a` on rationals. -/
def qAbs (a : ℚ) : ℚ := mkRat a.num.natAbs a.den

/-- `q ^ k` for an integer exponent. -/
def qPowInt (q : ℚ) (k : Int) : ℚ :=
  if 0 ≤ k then q ^ k.toNat else qInv (q ^ (-k).toNat)

/-- Python runtime values as they occur in this code base (configuration
values, parsed JSON, extracted parameters).  Numbers keep Python's
`int` / `float` distinction; floats are modelled as rationals (the code never
relies on IEEE rounding), dicts as insertion-ordered string-keyed association
lists matching Python 3.7+ semantics. -/
inductive PyVal : Type where
  | none : PyVal
  | bool (b : Bool) : PyVal
  | int (i : Int) : PyVal
  | float (q : ℚ) : PyVal
  | str (s : String) : PyVal
  | list (xs : List PyVal) : PyVal
  | tuple (xs : List PyVal) : PyVal
  | dict (kvs : List (String × PyVal)) : PyVal

/-- Numeric view used by Python `==` and arithmetic: `bool` is a subtype of
`int` (`True == 1`), ints and floats compare by value (`1 == 1.0`). -/
def PyVal.asNum : PyVal → Option ℚ
  | .bool b => some (if b then 1 else 0)
  | .int i => some (i : ℚ)
  | .float q => some q
  | _ => Option.none

/-- First binding of `k` in an association list (Python dict lookup). -/
def lookupStr {α : Type} (k : String) : List (String × α) → Option α
  | [] => Option.none
  | (k0, v) :: rest => if k0 = k then some v else lookupStr k rest

mutual
/-- Python `==` on the modelled values: numeric cross-type equality,
elementwise lists/tuples, key-set plus value equality for dicts. -/
def pyEq : PyVal → PyVal → Bool
  | .none, .none => true
  | .str a, .str b => a = b
  | .list a, .list b => pyEqList a b
  | .tuple a, .tuple b => pyEqList a b
  | .dict a, .dict b => a.length = b.length && pyEqDict a b
  | a, b =>
    match a.asNum, b.asNum with
    | some x, some y => x = y
    | _, _ => false

/-- Elementwise Python equality of two value lists. -/
def pyEqList : List PyVal → List PyVal → Bool
  | [], [] => true
  | x :: xs, y :: ys => pyEq x y && pyEqList xs ys
  | _, _ => false

/-- Every binding of the first dict is matched by the second
(`all(k in d2 and d1[k] == d2[k] for k in d1)`). -/
def pyEqDict : List (String × PyVal) → List (String × PyVal) → Bool
  | [], _ => true
  | (k, v) :: rest, b =>
    (match lookupStr k b with
     | some w => pyEq v w
     | Option.none => false) && pyEqDict rest b
end

/-- Insertion-ordered dict write `d[k] = v`: overwrites in place if the key
exists (keeping its position), else appends — Python 3.7+ semantics. -/
def dictSet {α : Type} : List (String × α) → String → α → List (String × α)
  | [], k, v => [(k, v)]
  | (k0, v0) :: rest, k, v =>
    if k0 = k then (k0, v) :: rest else (k0, v0) :: dictSet rest k v

/-- Python `d.update(src)`: fold the writes of `src` into `d` in order. -/
def dictUpdate {α : Type} (d src : List (String × α)) : List (String × α) :=
  src.foldl (fun acc kv => dictSet acc kv.1 kv.2) d

/-- Keys of a dict in insertion order. -/
def dictKeys {α : Type} (d : List (String × α)) : List String := d.map Prod.fst

/-- Python `k in d`. -/
def dictMem {α : Type} (k : String) (d : List (String × α)) : Bool :=
  (lookupStr k d).isSome

/-- Python `d.get(k)` with default `None` (also the value of `d[k]` used by
the diff engine, where a missing key and an explicit `None` coincide). -/
def dictGetNone (d : List (String × PyVal)) (k : String) : PyVal :=
  (lookupStr k d).getD PyVal.none

/-- Lexicographic code-point comparison of character lists. -/
def charListLt : List Char → List Char → Bool
  | [], [] => false
  | [], _ :: _ => true
  | _ :: _, [] => false
  | a :: as, b :: bs =>
    if a.toNat < b.toNat then true
    else if b.toNat < a.toNat then false
    else charListLt as bs

/-- Code-point comparison of strings, matching Python's `<` on `str`. -/
def strLtB (a b : String) : Bool := charListLt a.data b.data

/-- `sorted(...)` on strings: insertion sort by code-point order. -/
def sortStrs (l : List String) : List String :=
  l.foldr (fun s acc => insertSorted s acc) []
where
  insertSorted (s : String) : List String → List String
    | [] => [s]
    | t :: rest => if strLtB t s then t :: insertSorted s rest else s :: t :: rest

/-- `sorted(set(xs) | set(ys))`: sorted list of the distinct keys of both. -/
def sortedKeyUnion {α : Type} (a b : List (String × α)) : List String :=
  sortStrs ((dictKeys a ++ dictKeys b).dedup)

/-- `s.lower()` (the strings this code lowers are ASCII). -/
def toLowerStr (s : String) : String := String.mk (s.data.map Char.toLower)

/-- Python `needle in hay` on strings (substring containment). -/
def containsSub (n : List Char) : List Char → Bool
  | [] => n.isEmpty
  | c :: t => n.isPrefixOf (c :: t) || containsSub n t

/-- `PyVal is None` (identity test, not `==`). -/
def PyVal.isNone : PyVal → Bool
  | .none => true
  | _ => false

/-- Truthiness of an optional string (`if x:` is false for `None` and `""`). -/
def truthyOpt : Option String → Bool
  | Option.none => false
  | some s => s ≠ ""

/-! ## models.py -/

/-- models.RunRecord.  `datetime` values are modelled as rational timestamps
supplied by the caller (`utcnow` is an input of the embedding); paths as
strings. -/
structure Record where
  run_id : String
  name : Option String
  command : String
  workdir : String
  fingerprint : String
  env_snapshot : List (String × PyVal)
  metadata : List (String × PyVal)
  status : String
  exit_code : Option Int
  started_at : ℚ
  ended_at : Option ℚ
  duration_seconds : Option ℚ
  metrics : List (String × ℚ)
  primary_metric : Option String
  log_path : Option String
  artifact_paths : List (String × String)
  suggestion_count : Int
  suggestions : List String
  config_values : List (String × PyVal)

/-- models.RunRecord.finish: set status and exit code, stamp the end time and
the duration (`utcnow` passed in as `now`). -/
def Record.finish (r : Record) (status : String) (exit_code : Option Int) (now : ℚ) : Record :=
  { r with status := status, exit_code := exit_code, ended_at := some now,
           duration_seconds := some (qSub now r.started_at) }

/-! ## history.py -/

/-- The summary dict appended to `history.json` by history.RunHistory.append.
Metric values written by the guardian are floats (`_safe_float_map`), so the
metrics map is typed `String × ℚ` here. -/
structure Summary where
  run_id : String
  name : Option String
  status : String
  fingerprint : String
  metrics : List (String × ℚ)
  primary_metric : Option String
  duration_seconds : Option ℚ
  ended_at : Option ℚ
  config_values : List (String × PyVal)

/-- history.RunHistory.append: build the summary of a record. -/
def summaryOfRecord (r : Record) : Summary :=
  { run_id := r.run_id, name := r.name, status := r.status,
    fingerprint := r.fingerprint, metrics := r.metrics,
    primary_metric := r.primary_metric, duration_seconds := r.duration_seconds,
    ended_at := r.ended_at, config_values := r.config_values }

/-- history.RunHistory.append on the in-memory run list. -/
def historyAppend (runs : List Summary) (r : Record) : List Summary :=
  runs ++ [summaryOfRecord r]

/-- history.RunHistory.latest. -/
def historyLatest (runs : List Summary) : Option Summary := runs.getLast?

/-- history._should_minimize: lower-is-better iff the lowered name contains
`loss` or `error`, or starts with `wer`. -/
def shouldMinimize (metric_name : String) : Bool :=
  let lowered := toLowerStr metric_name
  containsSub "loss".data lowered.data || containsSub "error".data lowered.data ||
    "wer".data.isPrefixOf lowered.data

/-- Python `min(xs, key=f)`: the first element with minimal key (later
elements replace the running best only when strictly smaller). -/
def pyMinBy {α : Type} (f : α → ℚ) : List α → Option α
  | [] => Option.none
  | x :: xs => some (xs.foldl (fun b y => if f y < f b then y else b) x)

/-- Python `max(xs, key=f)`: the first element with maximal key. -/
def pyMaxBy {α : Type} (f : α → ℚ) : List α → Option α
  | [] => Option.none
  | x :: xs => some (xs.foldl (fun b y => if f y > f b then y else b) x)

/-- The metric value `r["metrics"][name]` used as the min/max key (only
evaluated on candidates, where the key is present). -/
def metricVal (name : String) (r : Summary) : ℚ := (lookupStr name r.metrics).getD 0

/-- history.RunHistory.best: `None` for a falsy metric name or when no run
carries the metric, else the min (lower-is-better names) or max entry. -/
def historyBest (runs : List Summary) (metric_name : Option String) : Option Summary :=
  match metric_name with
  | Option.none => Option.none
  | some s =>
    if s = "" then Option.none
    else
      let candidates := runs.filter (fun r => dictMem s r.metrics)
      if candidates.isEmpty then Option.none
      else if shouldMinimize s then pyMinBy (metricVal s) candidates
      else pyMaxBy (metricVal s) candidates

/-! ## JSON (Python `json` stdlib, used by history and fingerprint code)

`json.loads` modelled as a fuel-based recursive-descent parser producing a
`PyVal`; numbers without fraction/exponent load as ints, others as floats
(non-finite literals `NaN`/`Infinity`, which rationals cannot carry, and
lone surrogates are treated as parse failures; no claim depends on them). -/

/-- JSON whitespace (` `, `\t`, `\n`, `\r`). -/
def jsonWs (c : Char) : Bool := c = ' ' || c = '\t' || c = '\n' || c = '\r'

/-- Skip JSON whitespace. -/
def skipWs : List Char → List Char
  | [] => []
  | c :: t => if jsonWs c then skipWs t else c :: t

/-- Hex digit value (codepoint arithmetic: digits, then both letter cases). -/
def hexVal (c : Char) : Option Nat :=
  let d := c.toNat
  if 48 ≤ d && d ≤ 57 then some (d - 48)
  else if 97 ≤ d && d ≤ 102 then some (d - 87)
  else if 65 ≤ d && d ≤ 70 then some (d - 55)
  else Option.none

/-- Parse exactly four hex digits. -/
def parse4Hex : List Char → Option (Nat × List Char)
  | a :: b :: c :: d :: rest =>
    match hexVal a, hexVal b, hexVal c, hexVal d with
    | some x, some y, some z, some w => some (((x * 16 + y) * 16 + z) * 16 + w, rest)
    | _, _, _, _ => Option.none
  | _ => Option.none

/-- Parse the body of a JSON string (after the opening quote). -/
def parseJsonStr : Nat → List Char → Option (List Char × List Char)
  | 0, _ => Option.none
  | _, [] => Option.none
  | fuel + 1, c :: rest =>
    if c = '"' then some ([], rest)
    else if c = '\\' then
      match rest with
      | [] => Option.none
      | e :: rest2 =>
        let simple : Option Char :=
          if e = '"' then some '"' else if e = '\\' then some '\\'
          else if e = '/' then some '/' else if e = 'b' then some (Char.ofNat 8)
          else if e = 'f' then some (Char.ofNat 12) else if e = 'n' then some '\n'
          else if e = 'r' then some '\r' else if e = 't' then some '\t'
          else Option.none
        match simple with
        | some ch =>
          match parseJsonStr fuel rest2 with
          | some (cs, r) => some (ch :: cs, r)
          | Option.none => Option.none
        | Option.none =>
          if e = 'u' then
            match parse4Hex rest2 with
            | some (n, rest3) =>
              if 0xD800 ≤ n && n ≤ 0xDBFF then
                match rest3 with
                | '\\' :: 'u' :: rest4 =>
                  match parse4Hex rest4 with
                  | some (m, rest5) =>
                    if 0xDC00 ≤ m && m ≤ 0xDFFF then
                      let cp := 0x10000 + (n - 0xD800) * 0x400 + (m - 0xDC00)
                      match parseJsonStr fuel rest5 with
                      | some (cs, r) => some (Char.ofNat cp :: cs, r)
                      | Option.none => Option.none
                    else Option.none
                  | Option.none => Option.none
                | _ => Option.none
              else if 0xDC00 ≤ n && n ≤ 0xDFFF then Option.none
              else
                match parseJsonStr fuel rest3 with
                | some (cs, r) => some (Char.ofNat n :: cs, r)
                | Option.none => Option.none
            | Option.none => Option.none
          else Option.none
    else if c.toNat < 0x20 then Option.none
    else
      match parseJsonStr fuel rest with
      | some (cs, r) => some (c :: cs, r)
      | Option.none => Option.none

/-- One or more decimal digits. -/
def parseDigits : List Char → Option (List Char × List Char)
  | s =>
    let ds := s.takeWhile Char.isDigit
    if ds.isEmpty then Option.none else some (ds, s.drop ds.length)

/-- Digits to a natural number. -/
def digitsToNat (ds : List Char) : Nat :=
  ds.foldl (fun acc c => acc * 10 + (c.toNat - '0'.toNat)) 0

/-- The fraction part of a JSON number (`.` must be followed by digits). -/
def parseJsonFrac : List Char → Option (Option (List Char) × List Char)
  | '.' :: t =>
    (match parseDigits t with
     | some (ds, r) => some (some ds, r)
     | Option.none => Option.none)
  | s => some (Option.none, s)

/-- The exponent part of a JSON number. -/
def parseJsonExp (s : List Char) : Option (Option Int × List Char) :=
  match s with
  | e :: t =>
    if e = 'e' || e = 'E' then
      let (sgn, t2) : Int × List Char :=
        match t with
        | '+' :: u => (1, u)
        | '-' :: u => (-1, u)
        | _ => (1, t)
      match parseDigits t2 with
      | some (ds, r) => some (some (sgn * (digitsToNat ds : Int)), r)
      | Option.none => Option.none
    else some (Option.none, s)
  | [] => some (Option.none, s)

/-- Build the numeric value: an int when there is no fraction and no
exponent, a float otherwise. -/
def jsonNumOf (neg : Bool) (ip : List Char) (fr : Option (List Char))
    (ex : Option Int) : PyVal :=
  match fr, ex with
  | Option.none, Option.none =>
    PyVal.int (if neg then -(digitsToNat ip : Int) else (digitsToNat ip : Int))
  | _, _ =>
    let base : ℚ := qAdd (digitsToNat ip : ℚ)
      (match fr with
       | some ds => qDiv (digitsToNat ds : ℚ) ((10 : ℚ) ^ ds.length)
       | Option.none => 0)
    let scaled : ℚ :=
      match ex with
      | some k => qMul base (qPowInt 10 k)
      | Option.none => base
    PyVal.float (if neg then qNeg scaled else scaled)

/-- Parse a JSON number (strict grammar: optional `-`, `0` or a non-zero
leading digit run, optional fraction and exponent). -/
def parseJsonNum (s : List Char) : Option (PyVal × List Char) :=
  let (neg, s1) : Bool × List Char :=
    match s with
    | '-' :: t => (true, t)
    | _ => (false, s)
  let intPart : Option (List Char × List Char) :=
    match s1 with
    | '0' :: t => some (['0'], t)
    | c :: _ => if '1' ≤ c && c ≤ '9' then parseDigits s1 else Option.none
    | [] => Option.none
  match intPart with
  | Option.none => Option.none
  | some (ip, s2) =>
    match parseJsonFrac s2 with
    | Option.none => Option.none
    | some (fr, s3) =>
      match parseJsonExp s3 with
      | Option.none => Option.none
      | some (ex, s4) => some (jsonNumOf neg ip fr ex, s4)

mutual
/-- Parse one JSON value. -/
def parseJsonVal : Nat → List Char → Option (PyVal × List Char)
  | 0, _ => Option.none
  | fuel + 1, s =>
    match skipWs s with
    | [] => Option.none
    | c :: rest =>
      if c = '"' then
        match parseJsonStr fuel rest with
        | some (cs, r) => some (PyVal.str (String.mk cs), r)
        | Option.none => Option.none
      else if c = '{' then parseJsonObj fuel true (skipWs rest) []
      else if c = '[' then parseJsonArr fuel true (skipWs rest) []
      else if c = 't' then
        match rest with
        | 'r' :: 'u' :: 'e' :: r => some (PyVal.bool true, r)
        | _ => Option.none
      else if c = 'f' then
        match rest with
        | 'a' :: 'l' :: 's' :: 'e' :: r => some (PyVal.bool false, r)
        | _ => Option.none
      else if c = 'n' then
        match rest with
        | 'u' :: 'l' :: 'l' :: r => some (PyVal.none, r)
        | _ => Option.none
      else parseJsonNum (c :: rest)

/-- Parse the members of a JSON object after `{` (duplicate keys: last one
wins, as in Python). -/
def parseJsonObj : Nat → Bool → List Char → List (String × PyVal) →
    Option (PyVal × List Char)
  | 0, _, _, _ => Option.none
  | fuel + 1, first, s, acc =>
    match s with
    | '}' :: r => if first then some (PyVal.dict acc, r) else Option.none
    | '"' :: rest =>
      match parseJsonStr fuel rest with
      | some (kcs, r1) =>
        (match skipWs r1 with
         | ':' :: r2 =>
           match parseJsonVal fuel r2 with
           | some (v, r3) =>
             let acc2 := dictSet acc (String.mk kcs) v
             (match skipWs r3 with
              | ',' :: r4 => parseJsonObj fuel false (skipWs r4) acc2
              | '}' :: r4 => some (PyVal.dict acc2, r4)
              | _ => Option.none)
           | Option.none => Option.none
         | _ => Option.none)
      | Option.none => Option.none
    | _ => Option.none

/-- Parse the elements of a JSON array after `[`. -/
def parseJsonArr : Nat → Bool → List Char → List PyVal → Option (PyVal × List Char)
  | 0, _, _, _ => Option.none
  | fuel + 1, first, s, acc =>
    match s with
    | ']' :: r => if first then some (PyVal.list acc.reverse, r) else Option.none
    | _ =>
      match parseJsonVal fuel s with
      | some (v, r1) =>
        (match skipWs r1 with
         | ',' :: r2 => parseJsonArr fuel false (skipWs r2) (v :: acc)
         | ']' :: r2 => some (PyVal.list (v :: acc).reverse, r2)
         | _ => Option.none)
      | Option.none => Option.none
end

/-- `json.loads`: parse one value and require only whitespace afterwards. -/
def jsonLoads (text : String) : Option PyVal :=
  match parseJsonVal (text.length + 1) text.data with
  | some (v, rest) => if (skipWs rest).isEmpty then some v else Option.none
  | Option.none => Option.none

/-! ## File system (for history.RunHistory construction)

The file system is modelled as a path-to-content association list. -/

/-- The modelled file system. -/
abbrev FS := List (String × String)

/-- Read a file. -/
def fsRead (fs : FS) (p : String) : Option String := lookupStr p fs

/-- Index of the last occurrence of a character. -/
def lastIdxOf (c : Char) (l : List Char) : Option Nat :=
  (List.range l.length).foldl
    (fun acc i => if l.getD i ' ' = c then some i else acc) Option.none

/-- pathlib `Path.with_suffix`: replace the last extension of the final path
component (a leading dot does not start an extension). -/
def pathWithSuffix (path sfx : String) : String :=
  let cs := path.data
  let slash := lastIdxOf '/' cs
  let nameStart := match slash with
    | some i => i + 1
    | Option.none => 0
  let name := cs.drop nameStart
  let stemLen := match lastIdxOf '.' name with
    | some i => if i > 0 then i else name.length
    | Option.none => name.length
  String.mk (cs.take nameStart ++ name.take stemLen ++ sfx.data)

/-- `Path.rename` (overwrites an existing destination, POSIX semantics). -/
def fsRename (fs : FS) (src dst : String) : FS :=
  match fsRead fs src with
  | Option.none => fs
  | some content => dictSet (fs.filter (fun kv => kv.1 ≠ src)) dst content

/-- history.RunHistory.__init__ (lines 13-22): load `history.json`; if the
file exists but does not parse, rename it aside with suffix `.corrupted` and
start from an empty ledger.  Returns the in-memory `_data` value and the
resulting file system. -/
def historyInit (fs : FS) (path : String) : PyVal × FS :=
  match fsRead fs path with
  | Option.none => (PyVal.dict [("runs", PyVal.list [])], fs)
  | some text =>
    match jsonLoads text with
    | some v => (v, fs)
    | Option.none =>
      (PyVal.dict [("runs", PyVal.list [])],
       fsRename fs path (pathWithSuffix path ".corrupted"))

/-! ## diff_engine.py -/

/-- diff_engine.ConfigDiffEntry.  `current`/`reference` hold `d.get(key)`,
so a missing key and an explicit `None` both appear as `PyVal.none`, exactly
as in the source. -/
structure ConfigDiffEntry where
  key : String
  current : PyVal
  reference : PyVal

/-- diff_engine.DiffResult.  The metric delta dict is the tuple
(metric, current, reference, delta). -/
structure DiffResult where
  reference_run : Option Summary
  reference_type : Option String
  config_differences : List ConfigDiffEntry
  metric_delta : Option (String × ℚ × ℚ × ℚ)
  reference_record : Option Record

/-- The `param_keys` probed by `_diff_configs` when back-filling
`_tracked_params` from the reference run's metrics. -/
def trackedParamKeys : List String :=
  ["learning_rate", "lr", "batch_size", "epochs",
   "optimizer", "model_type", "hidden_size", "dropout"]

/-- diff_engine._diff_configs, extraction step: collect the common parameter
fields present in the reference run's metrics. -/
def extractTrackedFromMetrics (ref_metrics : List (String × ℚ)) :
    List (String × PyVal) :=
  trackedParamKeys.foldl
    (fun acc key =>
      match lookupStr key ref_metrics with
      | some v => dictSet acc key (PyVal.float v)
      | Option.none => acc) []

/-- diff_engine._diff_configs, back-fill step (lines 77-95): when the current
run tracks parameters but the reference configuration lacks (or has `None`
for) `_tracked_params`, patch the reference with parameters extracted from
the full reference record's metrics. -/
def backfillTrackedParams (current reference : List (String × PyVal))
    (full_reference : Option Summary) : List (String × PyVal) :=
  if dictMem "_tracked_params" current &&
      !(dictGetNone current "_tracked_params").isNone then
    if !dictMem "_tracked_params" reference ||
        (dictGetNone reference "_tracked_params").isNone then
      match full_reference with
      | some ref =>
        let extracted := extractTrackedFromMetrics ref.metrics
        if extracted.isEmpty then reference
        else dictSet reference "_tracked_params" (PyVal.dict extracted)
      | Option.none => reference
    else reference
  else reference

/-- diff_engine._diff_configs (lines 58-99): back-fill `_tracked_params`,
then report every key of the sorted union of both top-level key sets whose
values differ under Python `!=`. -/
def diffConfigs (current reference_config : List (String × PyVal))
    (full_reference : Option Summary) : List ConfigDiffEntry :=
  let reference := backfillTrackedParams current reference_config full_reference
  (sortedKeyUnion current reference).foldl
    (fun diffs key =>
      let cur_val := dictGetNone current key
      let ref_val := dictGetNone reference key
      if pyEq cur_val ref_val then diffs
      else diffs ++ [⟨key, cur_val, ref_val⟩]) []

/-- diff_engine._diff_metric: requires a truthy primary metric present on
both sides; reports (metric, current, reference, current − reference). -/
def diffMetric (record : Record) (reference : Summary) :
    Option (String × ℚ × ℚ × ℚ) :=
  match record.primary_metric with
  | Option.none => Option.none
  | some name =>
    if name = "" then Option.none
    else
      match lookupStr name record.metrics, lookupStr name reference.metrics with
      | some c, some r => some (name, c, r, qSub c r)
      | _, _ => Option.none

/-- diff_engine.diff_against_history: pick the best run for the primary
metric, else the latest run, else none; diff configurations and the primary
metric against it.  `RunRecord(**reference)` always raises `TypeError`
(history summaries lack the required `command`, `workdir`, `env_snapshot`
and `metadata` fields), so `reference_record` is always `None`. -/
def diffAgainstHistory (record : Record) (runs : List Summary) : DiffResult :=
  let ref0 : Option Summary :=
    if truthyOpt record.primary_metric then historyBest runs record.primary_metric
    else Option.none
  let refType0 : Option String := if ref0.isSome then some "best" else Option.none
  let (reference, reference_type) : Option Summary × Option String :=
    match ref0 with
    | some r => (some r, refType0)
    | Option.none =>
      let l := historyLatest runs
      (l, if l.isSome then some "previous" else Option.none)
  match reference with
  | some ref =>
    { reference_run := some ref, reference_type := reference_type,
      config_differences := diffConfigs record.config_values ref.config_values (some ref),
      metric_delta := diffMetric record ref,
      reference_record := Option.none }
  | Option.none =>
    { reference_run := Option.none, reference_type := reference_type,
      config_differences := [], metric_delta := Option.none,
      reference_record := Option.none }

/-! ## Regular expressions (Python `re`, as used by param_parser and the log
parser)

The concrete patterns of the source are hand-compiled into backtracking
matcher combinators.  A matcher maps an input suffix to the list of
(captures, remaining suffix) alternatives in Python's backtracking priority
order, so `.head?` is the match `re` reports; greedy `*`/`+`/`?` emit the
longest alternative first, alternations emit in source order. -/

/-- A backtracking matcher: all (result, rest) alternatives in priority
order. -/
def RxM (α : Type) : Type := List Char → List (α × List Char)

instance : Monad RxM where
  pure a := fun s => [(a, s)]
  bind m f := fun s => (m s).flatMap (fun p => f p.1 p.2)

/-- Match a single character satisfying `p` (a character class). -/
def rxChar (p : Char → Bool) : RxM Char := fun s =>
  match s with
  | [] => []
  | c :: rest => if p c then [(c, rest)] else []

/-- Match a literal, case sensitively. -/
def rxLit : List Char → RxM (List Char) := fun lit s =>
  match lit, s with
  | [], _ => [([], s)]
  | _ :: _, [] => []
  | c :: cs, x :: xs =>
    if x = c then (rxLit cs xs).map (fun p => (x :: p.1, p.2)) else []

/-- Match a pre-lowercased literal case-insensitively, returning the original
input characters. -/
def rxLitCIAux : List Char → RxM (List Char) := fun lit s =>
  match lit, s with
  | [], _ => [([], s)]
  | _ :: _, [] => []
  | c :: cs, x :: xs =>
    if x.toLower = c then (rxLitCIAux cs xs).map (fun p => (x :: p.1, p.2)) else []

/-- Match a literal under `re.IGNORECASE`. -/
def rxLitCI (lit : List Char) : RxM (List Char) := rxLitCIAux (lit.map Char.toLower)

/-- Ordered alternation `a|b|...`. -/
def rxAlts {α : Type} (l : List (RxM α)) : RxM α := fun s => l.flatMap (fun m => m s)

/-- Greedy `m?`: the present alternative first. -/
def rxOptGreedy {α : Type} (m : RxM α) : RxM (Option α) := fun s =>
  (m s).map (fun p => (some p.1, p.2)) ++ [(Option.none, s)]

/-- Greedy `[class]*`: longest run first, backtracking one character at a
time. -/
def rxStarCls (p : Char → Bool) : RxM (List Char) := fun s =>
  let run := s.takeWhile p
  let n := run.length
  (List.range (n + 1)).map (fun i => (run.take (n - i), s.drop (n - i)))

/-- Greedy `[class]+`. -/
def rxPlusCls (p : Char → Bool) : RxM (List Char) := fun s =>
  let run := s.takeWhile p
  let n := run.length
  (List.range n).map (fun i => (run.take (n - i), s.drop (n - i)))

/-- Zero-width assertion on the remaining input (lookahead, `$`, trailing
word boundary). -/
def rxAssertNext (p : List Char → Bool) : RxM Unit := fun s =>
  if p s then [((), s)] else []

/-- Zero-width assertion on already-known context (leading word boundary). -/
def rxGuard (b : Bool) : RxM Unit := fun s => if b then [((), s)] else []

/-- Python `\s` (ASCII: space, tab, newline, carriage return, form feed,
vertical tab). -/
def isPySpace (c : Char) : Bool :=
  c = ' ' || c = '\t' || c = '\n' || c = '\r' || c = '\x0b' || c = '\x0c'

/-- Python `\w` over the ASCII range handled by this code. -/
def isWordChar (c : Char) : Bool := c.isAlphanum || c = '_'

/-- The leftmost match of `m` at the current position, if any. -/
def rxFirst {α : Type} (m : RxM α) (s : List Char) : Option (α × List Char) :=
  (m s).head?

/-- `re.finditer`: scan left to right, taking each leftmost non-overlapping
match and continuing after it (the matcher receives the previous character
for word-boundary context).  Fuel decreases every step. -/
def rxFindIterAux {α : Type} (m : Option Char → RxM α) :
    Nat → Option Char → List Char → List α
  | 0, _, _ => []
  | fuel + 1, prev, s =>
    match rxFirst (m prev) s with
    | some (a, rest) =>
      let consumed := s.length - rest.length
      if consumed = 0 then
        match s with
        | [] => [a]
        | c :: tail => a :: rxFindIterAux m fuel (some c) tail
      else a :: rxFindIterAux m fuel ((s.take consumed).getLast?) rest
    | Option.none =>
      match s with
      | [] => []
      | c :: tail => rxFindIterAux m fuel (some c) tail

/-- `re.finditer` / `re.findall` over a whole line. -/
def rxFindIter {α : Type} (m : Option Char → RxM α) (s : List Char) : List α :=
  rxFindIterAux m (s.length + 1) Option.none s

/-- `re.search`: the first match anywhere. -/
def rxSearchAux {α : Type} (m : Option Char → RxM α) :
    Nat → Option Char → List Char → Option α
  | 0, _, _ => Option.none
  | fuel + 1, prev, s =>
    match rxFirst (m prev) s with
    | some (a, _) => some a
    | Option.none =>
      match s with
      | [] => Option.none
      | c :: tail => rxSearchAux m fuel (some c) tail

/-- `re.search` over a line. -/
def rxSearch {α : Type} (m : Option Char → RxM α) (s : List Char) : Option α :=
  rxSearchAux m (s.length + 1) Option.none s

/-! ## param_parser.py -/

/-- The key class `[a-zA-Z0-9_-]` of the long-option patterns. -/
def keyCharB (c : Char) : Bool := c.isAlpha || c.isDigit || c = '_' || c = '-'

/-- `--([a-zA-Z][a-zA-Z0-9_-]*)[=\s]+([^\s-][^\s]*)`: a long option with a
value; the first value character may be neither whitespace nor `-`. -/
def paramLongM : RxM (String × String) := do
  let _ ← rxLit "--".data
  let c0 ← rxChar Char.isAlpha
  let rest ← rxStarCls keyCharB
  let _ ← rxPlusCls (fun c => c = '=' || isPySpace c)
  let v0 ← rxChar (fun c => !isPySpace c && c ≠ '-')
  let vrest ← rxStarCls (fun c => !isPySpace c)
  pure (String.mk (c0 :: rest), String.mk (v0 :: vrest))

/-- `--([a-zA-Z][a-zA-Z0-9_-]*)(?=\s|$)`: a bare long flag. -/
def paramFlagM : RxM String := do
  let _ ← rxLit "--".data
  let c0 ← rxChar Char.isAlpha
  let rest ← rxStarCls keyCharB
  let _ ← rxAssertNext (fun s =>
    match s with
    | [] => true
    | c :: _ => isPySpace c)
  pure (String.mk (c0 :: rest))

/-- `\s-([a-zA-Z])\s+([^\s-][^\s]*)`: a short option with a value. -/
def paramShortM : RxM (String × String) := do
  let _ ← rxChar isPySpace
  let _ ← rxChar (· = '-')
  let k ← rxChar Char.isAlpha
  let _ ← rxPlusCls isPySpace
  let v0 ← rxChar (fun c => !isPySpace c && c ≠ '-')
  let vrest ← rxStarCls (fun c => !isPySpace c)
  pure (String.mk [k], String.mk (v0 :: vrest))

/-- Python `str.split(sep)` for a one-character separator. -/
def splitChar (sep : Char) : List Char → List (List Char)
  | [] => [[]]
  | c :: t =>
    if c = sep then [] :: splitChar sep t
    else
      match splitChar sep t with
      | [] => [[c]]
      | h :: r => (c :: h) :: r

/-- Python `str.strip()`. -/
def pyStripStr (s : String) : String :=
  String.mk (((s.data.dropWhile isPySpace).reverse.dropWhile isPySpace).reverse)

/-- Python `int(str)`: optional sign and decimal digits (digit-group
underscores are not modelled; the repository never feeds them). -/
def pyIntOfStr (s : String) : Option Int :=
  let (neg, ds) : Bool × List Char :=
    match s.data with
    | '-' :: t => (true, t)
    | '+' :: t => (false, t)
    | t => (false, t)
  if ds.isEmpty || !ds.all Char.isDigit then Option.none
  else some (if neg then -(digitsToNat ds : Int) else (digitsToNat ds : Int))

/-- Python `float(str)` on finite decimal/exponent notation (`inf`/`nan`,
which rationals cannot carry, are treated as failures; the repository only
feeds decimal notation). -/
def pyFloatOfStr (s : String) : Option ℚ :=
  let (neg, t0) : Bool × List Char :=
    match s.data with
    | '-' :: t => (true, t)
    | '+' :: t => (false, t)
    | t => (false, t)
  let ip := t0.takeWhile Char.isDigit
  let t1 := t0.drop ip.length
  let (fr, t2) : List Char × List Char :=
    match t1 with
    | '.' :: u => (u.takeWhile Char.isDigit, u.drop (u.takeWhile Char.isDigit).length)
    | _ => ([], t1)
  if ip.isEmpty && fr.isEmpty then Option.none
  else
    let mantissa : ℚ := qAdd (digitsToNat ip : ℚ)
      (if fr.isEmpty then 0 else qDiv (digitsToNat fr : ℚ) ((10 : ℚ) ^ fr.length))
    match t2 with
    | [] => some (if neg then qNeg mantissa else mantissa)
    | e :: t3 =>
      if e = 'e' || e = 'E' then
        let (esgn, t4) : Int × List Char :=
          match t3 with
          | '+' :: u => (1, u)
          | '-' :: u => (-1, u)
          | _ => (1, t3)
        let eds := t4.takeWhile Char.isDigit
        if eds.isEmpty || !(t4.drop eds.length).isEmpty then Option.none
        else
          let v := qMul mantissa (qPowInt 10 (esgn * (digitsToNat eds : Int)))
          some (if neg then qNeg v else v)
      else Option.none

/-- param_parser._parse_value (lines 47-84): number, boolean, `None`,
comma-separated list, else plain string.  Fuel bounds the recursion on
comma-separated items. -/
def parseValueAux : Nat → String → PyVal
  | 0, s => PyVal.str s
  | fuel + 1, value_str =>
    let v := pyStripStr value_str
    let lowered := toLowerStr v
    let numeric : Option PyVal :=
      if containsSub ".".data v.data || containsSub "e".data lowered.data then
        (pyFloatOfStr v).map PyVal.float
      else (pyIntOfStr v).map PyVal.int
    match numeric with
    | some n => n
    | Option.none =>
      if lowered = "true" || lowered = "yes" || lowered = "y" || lowered = "1" then
        PyVal.bool true
      else if lowered = "false" || lowered = "no" || lowered = "n" || lowered = "0" then
        PyVal.bool false
      else if lowered = "none" || lowered = "null" then PyVal.none
      else if containsSub ",".data v.data && !("[".data.isPrefixOf v.data) then
        PyVal.list ((splitChar ',' v.data).map
          (fun item => parseValueAux fuel (pyStripStr (String.mk item))))
      else PyVal.str v

/-- param_parser._parse_value. -/
def parseValue (s : String) : PyVal := parseValueAux (s.length + 1) s

/-- param_parser.parse_command_params (lines 8-44): long options with
values, then bare flags (never overwriting), then short options under a `_`
prefix. -/
def parseCommandParams (command : String) : List (String × PyVal) :=
  let longMatches := rxFindIter (fun _ => paramLongM) command.data
  let params1 := longMatches.foldl
    (fun acc kv => dictSet acc kv.1 (parseValue kv.2)) []
  let flags := rxFindIter (fun _ => paramFlagM) command.data
  let params2 := flags.foldl
    (fun acc flag => if dictMem flag acc then acc else dictSet acc flag (PyVal.bool true))
    params1
  let shorts := rxFindIter (fun _ => paramShortM) command.data
  shorts.foldl (fun acc kv => dictSet acc ("_" ++ kv.1) (parseValue kv.2)) params2

/-! ## log_parser.py -/

/-- log_parser.LogParser.METRIC_ALIASES. -/
def metricAliases : List (String × String) :=
  [("loss", "loss"), ("train_loss", "train_loss"), ("val_loss", "val_loss"),
   ("test_loss", "test_loss"), ("validation_loss", "val_loss"),
   ("training_loss", "train_loss"),
   ("acc", "accuracy"), ("accuracy", "accuracy"), ("train_acc", "train_accuracy"),
   ("val_acc", "val_accuracy"), ("test_acc", "test_accuracy"),
   ("train_accuracy", "train_accuracy"), ("val_accuracy", "val_accuracy"),
   ("test_accuracy", "test_accuracy"), ("validation_accuracy", "val_accuracy"),
   ("f1", "f1_score"), ("f1_score", "f1_score"), ("f1-score", "f1_score"),
   ("precision", "precision"), ("recall", "recall"), ("auc", "auc"),
   ("auroc", "auc"), ("mse", "mse"), ("mae", "mae"), ("rmse", "rmse"),
   ("lr", "learning_rate"), ("learning_rate", "learning_rate")]

/-- log_parser.LogParser._standardize_metric_name. -/
def standardizeMetricName (name : String) : String :=
  let n0 := toLowerStr (pyStripStr name)
  let n := String.mk (n0.data.map (fun c => if c = '-' || c = ' ' then '_' else c))
  (lookupStr n metricAliases).getD n

/-- `^\s*\d+%\|` (tqdm percent bar). -/
def percentBarM : RxM Unit := do
  let _ ← rxStarCls isPySpace
  let _ ← rxPlusCls Char.isDigit
  let _ ← rxChar (· = '%')
  let _ ← rxChar (· = '|')
  pure ()

/-- log_parser.LogParser._is_progress_bar. -/
def isProgressBar (line : String) : Bool :=
  (containsSub "|".data line.data &&
    (containsSub "it/s".data line.data || containsSub "B/s".data line.data)) ||
  (rxFirst percentBarM line.data).isSome

/-- A prefix alternative such as `train_?` (the literal, then an optional
underscore, both case-insensitive). -/
def rxPrefAlt (w : String) : RxM (List Char) := do
  let a ← rxLitCI w.data
  let u ← rxOptGreedy (rxLitCI "_".data)
  pure (a ++ u.getD [])

/-- The numeric value group `[-+]?\d*\.?\d+(?:[eE][-+]?\d+)?`. -/
def numValueM : RxM (List Char) := do
  let sg ← rxOptGreedy (rxChar (fun c => c = '-' || c = '+'))
  let d1 ← rxStarCls Char.isDigit
  let dot ← rxOptGreedy (rxChar (· = '.'))
  let d2 ← rxPlusCls Char.isDigit
  let ex ← rxOptGreedy (do
    let e ← rxChar (fun c => c = 'e' || c = 'E')
    let es ← rxOptGreedy (rxChar (fun c => c = '-' || c = '+'))
    let ed ← rxPlusCls Char.isDigit
    pure (e :: (es.elim [] (fun c => [c])) ++ ed))
  pure ((sg.elim [] (fun c => [c])) ++ d1 ++ (dot.elim [] (fun c => [c])) ++ d2 ++ ex.getD [])

/-- The name group of the first `_extract_metrics` pattern
(`\b(?:train_?|val_?|test_?|validation_?)?(?:loss|acc(?:uracy)?|f1(?:_?score)?|precision|recall|auc|mse|mae|rmse)\b`
under `re.IGNORECASE`); `prev` is the character before the match position,
for the leading word boundary. -/
def metricNameM1 (prev : Option Char) : RxM (List Char) := do
  let _ ← rxGuard (!(prev.elim false isWordChar))
  let pre ← rxOptGreedy (rxAlts
    [rxPrefAlt "train", rxPrefAlt "val", rxPrefAlt "test", rxPrefAlt "validation"])
  let core ← rxAlts
    [rxLitCI "loss".data,
     do {
       let a ← rxLitCI "acc".data
       let t ← rxOptGreedy (rxLitCI "uracy".data)
       pure (a ++ t.getD []) },
     do {
       let f ← rxLitCI "f1".data
       let t ← rxOptGreedy (do
         let u ← rxOptGreedy (rxLitCI "_".data)
         let sc ← rxLitCI "score".data
         pure (u.getD [] ++ sc))
       pure (f ++ t.getD []) },
     rxLitCI "precision".data, rxLitCI "recall".data, rxLitCI "auc".data,
     rxLitCI "mse".data, rxLitCI "mae".data, rxLitCI "rmse".data]
  let _ ← rxAssertNext (fun s => !(s.head?.elim false isWordChar))
  pure (pre.getD [] ++ core)

/-- The name group of the second `_extract_metrics` pattern (the capitalized
spelling; `[Ss]core` under `re.IGNORECASE` is the case-insensitive literal
`Score`).  Because both patterns are compiled with `re.IGNORECASE`, this is
the same matcher as `metricNameM1`. -/
def metricNameM2 (prev : Option Char) : RxM (List Char) := do
  let _ ← rxGuard (!(prev.elim false isWordChar))
  let pre ← rxOptGreedy (rxAlts
    [rxPrefAlt "Train", rxPrefAlt "Val", rxPrefAlt "Test", rxPrefAlt "Validation"])
  let core ← rxAlts
    [rxLitCI "Loss".data,
     do {
       let a ← rxLitCI "Acc".data
       let t ← rxOptGreedy (rxLitCI "uracy".data)
       pure (a ++ t.getD []) },
     do {
       let f ← rxLitCI "F1".data
       let t ← rxOptGreedy (do
         let u ← rxOptGreedy (rxLitCI "_".data)
         let sc ← rxLitCI "Score".data
         pure (u.getD [] ++ sc))
       pure (f ++ t.getD []) },
     rxLitCI "Precision".data, rxLitCI "Recall".data, rxLitCI "AUC".data,
     rxLitCI "MSE".data, rxLitCI "MAE".data, rxLitCI "RMSE".data]
  let _ ← rxAssertNext (fun s => !(s.head?.elim false isWordChar))
  pure (pre.getD [] ++ core)

/-- Attach the remaining suffix after the match (for the source's
`line[match.end():match.end()+2]` percent probe). -/
def rxWithRest {α : Type} (m : RxM α) : RxM (α × List Char) := fun s =>
  (m s).map (fun p => ((p.1, p.2), p.2))

/-- Whole first metric pattern: name, separator `[\s]*[:=][\s]*`, value,
`[\s]*%?`; captures (name, value) and the post-match suffix. -/
def metricM1 (prev : Option Char) : RxM ((List Char × List Char) × List Char) :=
  rxWithRest (do
    let name ← metricNameM1 prev
    let _ ← rxStarCls isPySpace
    let _ ← rxChar (fun c => c = ':' || c = '=')
    let _ ← rxStarCls isPySpace
    let value ← numValueM
    let _ ← rxStarCls isPySpace
    let _ ← rxOptGreedy (rxChar (· = '%'))
    pure (name, value))

/-- Whole second metric pattern. -/
def metricM2 (prev : Option Char) : RxM ((List Char × List Char) × List Char) :=
  rxWithRest (do
    let name ← metricNameM2 prev
    let _ ← rxStarCls isPySpace
    let _ ← rxChar (fun c => c = ':' || c = '=')
    let _ ← rxStarCls isPySpace
    let value ← numValueM
    let _ ← rxStarCls isPySpace
    let _ ← rxOptGreedy (rxChar (· = '%'))
    pure (name, value))

/-- One `_extract_metrics` pattern pass over a line: for each match, parse
the value, halve-by-100 when a `%` sits in the two characters after the
match, standardize the name and append to that metric's history. -/
def extractMetricsOne (pat : Option Char → RxM ((List Char × List Char) × List Char))
    (line : List Char) (hist : List (String × List ℚ)) : List (String × List ℚ) :=
  (rxFindIter pat line).foldl
    (fun h m =>
      match pyFloatOfStr (String.mk m.1.2) with
      | Option.none => h
      | some v0 =>
        let v := if containsSub "%".data (m.2.take 2) then qDiv v0 100 else v0
        let std := standardizeMetricName (toLowerStr (pyStripStr (String.mk m.1.1)))
        dictSet h std ((lookupStr std h).getD [] ++ [v]))
    hist

/-- log_parser.LogParser._extract_metrics (lines 161-193): both patterns in
order. -/
def extractMetrics (line : List Char) (hist : List (String × List ℚ)) :
    List (String × List ℚ) :=
  [metricM1, metricM2].foldl (fun h pat => extractMetricsOne pat line h) hist

/-- The name alternation of the config pattern
(`learning_rate|lr|batch_size|epochs?|num_epochs|hidden_dim|dropout|weight_decay`). -/
def configNameM : RxM (List Char) := rxAlts
  [rxLitCI "learning_rate".data, rxLitCI "lr".data, rxLitCI "batch_size".data,
   do {
     let a ← rxLitCI "epoch".data
     let s ← rxOptGreedy (rxLitCI "s".data)
     pure (a ++ s.getD []) },
   rxLitCI "num_epochs".data, rxLitCI "hidden_dim".data, rxLitCI "dropout".data,
   rxLitCI "weight_decay".data]

/-- The whole config pattern (no word boundaries in the source). -/
def configM : RxM (List Char × List Char) := do
  let name ← configNameM
  let _ ← rxStarCls isPySpace
  let _ ← rxChar (fun c => c = ':' || c = '=')
  let _ ← rxStarCls isPySpace
  let value ← numValueM
  pure (name, value)

/-- log_parser.LogParser._extract_config. -/
def extractConfig (line : List Char) (config : List (String × ℚ)) :
    List (String × ℚ) :=
  (rxFindIter (fun _ => configM) line).foldl
    (fun cfg m =>
      let name := toLowerStr (String.mk m.1)
      match pyFloatOfStr (String.mk m.2) with
      | Option.none => cfg
      | some v => dictSet cfg ((lookupStr name metricAliases).getD name) v)
    config

/-- `[Ee]poch[\s]*(?:[:=][\s]*)?(\d+)(?:/(\d+))?` (case sensitive). -/
def epochM : RxM (List Char) := do
  let _ ← rxChar (fun c => c = 'E' || c = 'e')
  let _ ← rxLit "poch".data
  let _ ← rxStarCls isPySpace
  let _ ← rxOptGreedy (do
    let _ ← rxChar (fun c => c = ':' || c = '=')
    let _ ← rxStarCls isPySpace
    pure ())
  let d ← rxPlusCls Char.isDigit
  let _ ← rxOptGreedy (do
    let _ ← rxChar (· = '/')
    let _ ← rxPlusCls Char.isDigit
    pure ())
  pure d

/-- log_parser.LogParser._extract_epoch: running maximum of the detected
epoch numbers. -/
def extractEpoch (line : List Char) (epochs : Nat) : Nat :=
  match rxSearch (fun _ => epochM) line with
  | some d => max epochs (digitsToNat d)
  | Option.none => epochs

/-- The value group of the best-metric pattern (no exponent part). -/
def bestValueM : RxM (List Char) := do
  let sg ← rxOptGreedy (rxChar (fun c => c = '-' || c = '+'))
  let d1 ← rxStarCls Char.isDigit
  let dot ← rxOptGreedy (rxChar (· = '.'))
  let d2 ← rxPlusCls Char.isDigit
  pure ((sg.elim [] (fun c => [c])) ++ d1 ++ (dot.elim [] (fun c => [c])) ++ d2)

/-- `(?:best|最佳)[\s]*(?:[\w_]*)?[\s]*[:=]?[\s]*(value)[\s]*%?` under
`re.IGNORECASE`. -/
def bestM : RxM (List Char) := do
  let _ ← rxAlts [rxLitCI "best".data, rxLitCI "最佳".data]
  let _ ← rxStarCls isPySpace
  let _ ← rxOptGreedy (rxStarCls isWordChar)
  let _ ← rxStarCls isPySpace
  let _ ← rxOptGreedy (rxChar (fun c => c = ':' || c = '='))
  let _ ← rxStarCls isPySpace
  let v ← bestValueM
  let _ ← rxStarCls isPySpace
  let _ ← rxOptGreedy (rxChar (· = '%'))
  pure v

/-- log_parser.LogParser._extract_best_metrics: gated on `best`/`最佳`/`保存`
appearing in the line; a value is divided by 100 when the line carries a `%`
or the value exceeds 1.5. -/
def extractBestMetrics (line : String) (best : List (String × ℚ)) :
    List (String × ℚ) :=
  if containsSub "best".data (toLowerStr line).data ||
      containsSub "最佳".data line.data || containsSub "保存".data line.data then
    match rxSearch (fun _ => bestM) line.data with
    | some vcs =>
      match pyFloatOfStr (String.mk vcs) with
      | some v =>
        let v2 := if containsSub "%".data line.data || decide (mkRat 3 2 < v) then
          qDiv v 100 else v
        dictSet best "best_accuracy" v2
      | Option.none => best
    | Option.none => best
  else best

/-- log_parser.ParsedMetrics. -/
structure ParsedMetrics where
  final_metrics : List (String × PyVal)
  history : List (String × List ℚ)
  epochs_detected : Nat
  best_metrics : List (String × ℚ)
  config : List (String × ℚ)

/-- The empty `ParsedMetrics()`. -/
def ParsedMetrics.initial : ParsedMetrics := ⟨[], [], 0, [], []⟩

/-- One iteration of the per-line loop of log_parser.LogParser.parse. -/
def parseLogLine (st : ParsedMetrics) (line : String) : ParsedMetrics :=
  if isProgressBar line then st
  else
    { st with
      config := extractConfig line.data st.config,
      epochs_detected := extractEpoch line.data st.epochs_detected,
      history := extractMetrics line.data st.history,
      best_metrics := extractBestMetrics line st.best_metrics }

/-- log_parser.LogParser._finalize_metrics (lines 226-242): last value as
`final_<name>`, first value as `initial_<name>` when there are several, then
the best metrics and the epoch count. -/
def finalizeMetrics (st : ParsedMetrics) : ParsedMetrics :=
  let fm := st.history.foldl
    (fun fm nv =>
      match nv.2 with
      | [] => fm
      | v0 :: _ =>
        let fm2 := dictSet fm ("final_" ++ nv.1) (PyVal.float ((nv.2.getLast?).getD 0))
        if nv.2.length > 1 then
          dictSet fm2 ("initial_" ++ nv.1) (PyVal.float v0)
        else fm2)
    st.final_metrics
  let fm := dictUpdate fm (st.best_metrics.map (fun kv => (kv.1, PyVal.float kv.2)))
  let fm := if st.epochs_detected > 0 then
    dictSet fm "epochs_completed" (PyVal.int st.epochs_detected) else fm
  { st with final_metrics := fm }

/-- log_parser.LogParser.parse (lines 93-128): split on newlines, skip
progress-bar lines, extract config/epoch/metrics/best per line, finalize. -/
def logParse (text : String) : ParsedMetrics :=
  let lines := (splitChar '\n' text.data).map String.mk
  finalizeMetrics (lines.foldl parseLogLine ParsedMetrics.initial)

/-- The per-line metric observations of the first `_extract_metrics`
pattern, after value parsing, percent scaling and name standardization (the
second pattern repeats them verbatim). -/
def lineObs (line : List Char) : List (String × ℚ) :=
  (rxFindIter metricM1 line).filterMap
    (fun m =>
      (pyFloatOfStr (String.mk m.1.2)).map
        (fun v0 =>
          (standardizeMetricName (toLowerStr (pyStripStr (String.mk m.1.1))),
           if containsSub "%".data (m.2.take 2) then qDiv v0 100 else v0)))

/-- The metric observations of a whole log text, in parse order (progress
bar lines skipped). -/
def textObs (text : String) : List (String × ℚ) :=
  ((splitChar '\n' text.data).map String.mk).flatMap
    (fun line => if isProgressBar line then [] else lineObs line.data)

/-- Append a list of (name, value) observations to a metric history, in
order (the effect of one `_extract_metrics` pattern pass). -/
def histAppendObs (hist : List (String × List ℚ)) (obs : List (String × ℚ)) :
    List (String × List ℚ) :=
  obs.foldl (fun h nv => dictSet h nv.1 ((lookupStr nv.1 h).getD [] ++ [nv.2])) hist

/-! ## Python `str()` / `repr()`

Needed for dict keys in code_parser (`str(key_val)`) and report
interpolation.  Container and float rendering is a definite model (claims
never depend on those renderings): floats print as `<num>.0` for integral
values and `<num>/<den>` otherwise, and `repr` of a string does not model
escaping. -/

/-- Model printer for the rationals standing in for Python floats. -/
def qRepr (q : ℚ) : String :=
  if q.den = 1 then toString q.num ++ ".0"
  else toString q.num ++ "/" ++ toString q.den

mutual
/-- Python `str(v)`. -/
def pyStr : PyVal → String
  | .none => "None"
  | .bool b => if b then "True" else "False"
  | .int i => toString i
  | .float q => qRepr q
  | .str s => s
  | .list xs => "[" ++ pyReprJoin xs ++ "]"
  | .tuple xs => "(" ++ pyReprJoin xs ++ ")"
  | .dict kvs => "\x7b" ++ pyReprJoinKV kvs ++ "\x7d"

/-- Python `repr(v)` (strings quoted). -/
def pyRepr : PyVal → String
  | .str s => "'" ++ s ++ "'"
  | .none => "None"
  | .bool b => if b then "True" else "False"
  | .int i => toString i
  | .float q => qRepr q
  | .list xs => "[" ++ pyReprJoin xs ++ "]"
  | .tuple xs => "(" ++ pyReprJoin xs ++ ")"
  | .dict kvs => "\x7b" ++ pyReprJoinKV kvs ++ "\x7d"

/-- Comma-joined element reprs. -/
def pyReprJoin : List PyVal → String
  | [] => ""
  | [x] => pyRepr x
  | x :: y :: rest => pyRepr x ++ ", " ++ pyReprJoin (y :: rest)

/-- Comma-joined `key: value` reprs. -/
def pyReprJoinKV : List (String × PyVal) → String
  | [] => ""
  | [(k, v)] => "'" ++ k ++ "': " ++ pyRepr v
  | (k, v) :: y :: rest => "'" ++ k ++ "': " ++ pyRepr v ++ ", " ++ pyReprJoinKV (y :: rest)
end

/-! ## code_parser.py -/

/-- code_parser.COMMON_PARAM_PATTERNS (a set; only membership is used). -/
def COMMON_PARAM_PATTERNS : List String :=
  ["lr", "learning_rate", "base_lr", "init_lr", "max_lr", "min_lr",
   "batch_size", "batch", "bs", "train_batch_size", "eval_batch_size",
   "epochs", "num_epochs", "max_epochs", "n_epochs", "total_epochs",
   "hidden_size", "hidden_dim", "num_layers", "n_layers", "num_heads",
   "embed_dim", "embedding_dim", "d_model", "dim", "channels",
   "hidden_dim_1", "hidden_dim_2", "hidden_dim_3",
   "dropout", "dropout_rate", "drop_rate", "weight_decay", "l2_reg",
   "momentum", "beta1", "beta2", "eps", "epsilon",
   "seed", "random_seed", "num_workers", "num_classes", "input_size",
   "max_length", "max_len", "seq_length", "warmup_steps", "warmup_epochs",
   "gradient_clip", "clip_grad", "accumulation_steps"]

/-- code_parser.CONFIG_DICT_NAMES. -/
def CONFIG_DICT_NAMES : List String :=
  ["config", "cfg", "args", "params", "hyperparams", "hparams",
   "settings", "options", "opts", "train_config", "model_config"]

/-- The binary operators `_eval_node` evaluates. -/
inductive PyBinOp : Type where
  | mult | div | add | sub | pow | otherOp

/-- The expression forms `_eval_node` distinguishes (`ast` nodes).
`callAttr` is a call on an attribute (always skipped), `other` any node the
source does not handle (evaluates to `None`). -/
inductive PyExpr : Type where
  | const (v : PyVal)
  | dictLit (items : List (Option PyExpr × PyExpr))
  | listLit (elts : List PyExpr)
  | tupleLit (elts : List PyExpr)
  | usub (operand : PyExpr)
  | binop (op : PyBinOp) (left right : PyExpr)
  | callAttr
  | callName (fn : String) (args : List PyExpr)
  | ifExp (body orelse : PyExpr)
  | other

/-- Numeric operand view for the extractor's arithmetic: (is-float, value).
Sequence concatenation/repetition (e.g. `str * int`) is not modelled and
counts as an evaluation failure. -/
def pyArithOperand : PyVal → Option (Bool × ℚ)
  | .bool b => some (false, if b then 1 else 0)
  | .int i => some (false, (i : ℚ))
  | .float q => some (true, q)
  | _ => Option.none

/-- Python binary arithmetic as used by `_eval_node` (failures — including
division by zero and a fractional float exponent, which leaves ℚ — become
`None` through the source's bare `except`). -/
def pyArith (op : PyBinOp) (a b : PyVal) : Option PyVal :=
  match pyArithOperand a, pyArithOperand b with
  | some (fa, x), some (fb, y) =>
    let mkNum (v : ℚ) : PyVal :=
      if fa || fb then PyVal.float v else PyVal.int v.num
    match op with
    | .mult => some (mkNum (qMul x y))
    | .add => some (mkNum (qAdd x y))
    | .sub => some (mkNum (qSub x y))
    | .div => if y = 0 then Option.none else some (PyVal.float (qDiv x y))
    | .pow =>
      if fa || fb then
        if y.den = 1 then
          if x = 0 && y.num < 0 then Option.none
          else some (PyVal.float (qPowInt x y.num))
        else Option.none
      else
        if 0 ≤ y.num then some (PyVal.int ((x ^ y.num.toNat).num))
        else if x = 0 then Option.none
        else some (PyVal.float (qPowInt x y.num))
    | .otherOp => Option.none
  | _, _ => Option.none

/-- Python unary minus (`-operand`); `-True` is the int `-1`. -/
def pyNegVal : PyVal → Option PyVal
  | .bool b => some (PyVal.int (if b then -1 else 0))
  | .int i => some (PyVal.int (-i))
  | .float q => some (PyVal.float (qNeg q))
  | _ => Option.none

mutual
/-- code_parser.CodeConfigExtractor._eval_node.  `Option.none` stands for
the Python `None` result (unhandled nodes and caught exceptions alike). -/
def evalNode : PyExpr → Option PyVal
  | .const v =>
    (match v with
     | .none => Option.none
     | w => some w)
  | .dictLit items =>
    let r := evalDictItems items
    if r.isEmpty then Option.none else some (PyVal.dict r)
  | .listLit elts =>
    let r := evalListItems elts
    if r.isEmpty then Option.none else some (PyVal.list r)
  | .tupleLit elts =>
    let r := evalListItems elts
    if r.isEmpty then Option.none else some (PyVal.tuple r)
  | .usub operand =>
    (match evalNode operand with
     | some v => pyNegVal v
     | Option.none => Option.none)
  | .binop op l r =>
    (match evalNode l, evalNode r with
     | some a, some b => pyArith op a b
     | _, _ => Option.none)
  | .callAttr => Option.none
  | .callName fn args =>
    if fn = "int" || fn = "float" || fn = "str" || fn = "bool" then
      match args with
      | a :: _ => evalNode a
      | [] => Option.none
    else Option.none
  | .ifExp body orelse =>
    (match evalNode body with
     | some v => some v
     | Option.none => evalNode orelse)
  | .other => Option.none

/-- code_parser.CodeConfigExtractor._eval_dict: skip `**` expansions and
members that fail to evaluate; keys go through `str()`. -/
def evalDictItems : List (Option PyExpr × PyExpr) → List (String × PyVal)
  | [] => []
  | (Option.none, _) :: rest => evalDictItems rest
  | (some k, v) :: rest =>
    match evalNode k, evalNode v with
    | some kv, some vv => (pyStr kv, vv) :: evalDictItems rest
    | _, _ => evalDictItems rest

/-- code_parser's `_eval_list` / `_eval_tuple` member evaluation. -/
def evalListItems : List PyExpr → List PyVal
  | [] => []
  | e :: rest =>
    match evalNode e with
    | some v => v :: evalListItems rest
    | Option.none => evalListItems rest
end

/-- code_parser.CodeConfigExtractor._is_param_like_name. -/
def isParamLikeName (name : String) : Bool :=
  let lowered := toLowerStr name
  ["lr", "rate", "size", "dim", "num", "max", "min",
   "epoch", "batch", "hidden", "layer", "dropout",
   "decay", "step", "warmup", "clip", "embed"].any
    (fun kw => containsSub kw.data lowered.data)

/-- Assignment targets (`ast.Name` or anything else, which is skipped). -/
inductive PyTarget : Type where
  | name (s : String)
  | nonName

/-- The statements the extractor visits (`ast.Assign`, `ast.AnnAssign`;
anything else is skipped by `_visit_module`). -/
inductive PyStmt : Type where
  | assign (targets : List PyTarget) (value : PyExpr)
  | annAssign (target : PyTarget) (value : Option PyExpr)
  | otherStmt

/-- The extractor's mutable state: independent parameters and named
configuration dictionaries. -/
structure ExtractState where
  extracted_params : List (String × PyVal)
  config_dicts : List (String × List (String × PyVal))

/-- code_parser.CodeConfigExtractor._handle_assign. -/
def handleAssign (st : ExtractState) (targets : List PyTarget) (value : PyExpr) :
    ExtractState :=
  targets.foldl
    (fun st t =>
      match t with
      | .nonName => st
      | .name var_name =>
        match evalNode value with
        | Option.none => st
        | some v =>
          match v with
          | .dict kvs =>
            if CONFIG_DICT_NAMES.contains (toLowerStr var_name) then
              { st with config_dicts := dictSet st.config_dicts var_name kvs }
            else if COMMON_PARAM_PATTERNS.contains (toLowerStr var_name) then
              { st with extracted_params := dictSet st.extracted_params var_name v }
            else if isParamLikeName var_name then
              { st with extracted_params := dictSet st.extracted_params var_name v }
            else st
          | _ =>
            if COMMON_PARAM_PATTERNS.contains (toLowerStr var_name) then
              { st with extracted_params := dictSet st.extracted_params var_name v }
            else if isParamLikeName var_name then
              { st with extracted_params := dictSet st.extracted_params var_name v }
            else st)
    st

/-- code_parser.CodeConfigExtractor._handle_ann_assign. -/
def handleAnnAssign (st : ExtractState) (target : PyTarget) (value : Option PyExpr) :
    ExtractState :=
  match target, value with
  | .name var_name, some expr =>
    (match evalNode expr with
     | some v =>
       if COMMON_PARAM_PATTERNS.contains (toLowerStr var_name) ||
           isParamLikeName var_name then
         { st with extracted_params := dictSet st.extracted_params var_name v }
       else st
     | Option.none => st)
  | _, _ => st

/-- code_parser.CodeConfigExtractor._visit_module over a flat module (for a
module without nested scopes, `ast.walk` visits the statements in order). -/
def visitModule (stmts : List PyStmt) : ExtractState :=
  stmts.foldl
    (fun st stmt =>
      match stmt with
      | .assign t v => handleAssign st t v
      | .annAssign t v => handleAnnAssign st t v
      | .otherStmt => st)
    ⟨[], []⟩

/-- The final-merge writes contributed by the configuration dictionaries, in
iteration order: bare keys for a recognized dictionary name, else
`dictname.key`. -/
def configDictWrites (config_dicts : List (String × List (String × PyVal))) :
    List (String × PyVal) :=
  config_dicts.flatMap
    (fun dn =>
      dn.2.map
        (fun kv =>
          if CONFIG_DICT_NAMES.contains dn.1 then (kv.1, kv.2)
          else (dn.1 ++ "." ++ kv.1, kv.2)))

/-- code_parser.CodeConfigExtractor.extract_from_code (lines 73-108), on an
already-parsed module: visit the assignments, then merge — independent
parameters first, configuration-dictionary entries layered on top.  (The
`SyntaxError` regex fallback is not modelled; it only runs when `ast.parse`
fails.) -/
def extractFromCode (stmts : List PyStmt) : List (String × PyVal) :=
  let st := visitModule stmts
  dictUpdate (dictUpdate [] st.extracted_params) (configDictWrites st.config_dicts)

/-! ## Python `json.dumps` (with `sort_keys=True`, default separators,
`ensure_ascii=True`), used by config_loader.canonical_payload and
fingerprint.build_fingerprint.  Floats print through the model printer
`qRepr` (no fingerprint claim depends on the float rendering). -/

/-- Lowercase hex digit. -/
def hexDigitChar (n : Nat) : Char :=
  if n < 10 then Char.ofNat ('0'.toNat + n) else Char.ofNat ('a'.toNat + n - 10)

/-- Fixed-width lowercase hex. -/
def hexOfNatFixed (len : Nat) (n : Nat) : List Char :=
  (List.range len).map (fun i => hexDigitChar ((n >>> (4 * (len - 1 - i))) % 16))

/-- JSON escape of one character (`ensure_ascii=True`). -/
def jsonEscapeChar (c : Char) : List Char :=
  if c = '"' then ['\\', '"']
  else if c = '\\' then ['\\', '\\']
  else if c = '\n' then ['\\', 'n']
  else if c = '\t' then ['\\', 't']
  else if c = '\r' then ['\\', 'r']
  else if c.toNat = 8 then ['\\', 'b']
  else if c.toNat = 12 then ['\\', 'f']
  else if c.toNat < 0x20 then '\\' :: 'u' :: hexOfNatFixed 4 c.toNat
  else if c.toNat < 0x7f then [c]
  else if c.toNat < 0x10000 then '\\' :: 'u' :: hexOfNatFixed 4 c.toNat
  else
    let v := c.toNat - 0x10000
    ('\\' :: 'u' :: hexOfNatFixed 4 (0xD800 + v / 0x400)) ++
      ('\\' :: 'u' :: hexOfNatFixed 4 (0xDC00 + v % 0x400))

/-- A JSON string literal. -/
def jsonStrLit (s : String) : List Char :=
  '"' :: s.data.flatMap jsonEscapeChar ++ ['"']

/-- `sorted(d.items())` by key (keys are unique in Python dicts). -/
def sortPairsByKey {α : Type} (kvs : List (String × α)) : List (String × α) :=
  kvs.foldr (fun kv acc => insertPair kv acc) []
where
  insertPair (kv : String × α) : List (String × α) → List (String × α)
    | [] => [kv]
    | p :: rest =>
      if strLtB p.1 kv.1 then p :: insertPair kv rest else kv :: p :: rest

mutual
/-- Sort every object of a value by key (the `sort_keys=True` phase of
`json.dumps`). -/
def sortDeep : PyVal → PyVal
  | .none => .none
  | .bool b => .bool b
  | .int i => .int i
  | .float q => .float q
  | .str s => .str s
  | .list xs => .list (sortDeepList xs)
  | .tuple xs => .tuple (sortDeepList xs)
  | .dict kvs => .dict (sortPairsByKey (sortDeepKVs kvs))

/-- `sortDeep` over array elements. -/
def sortDeepList : List PyVal → List PyVal
  | [] => []
  | x :: rest => sortDeep x :: sortDeepList rest

/-- `sortDeep` over object members. -/
def sortDeepKVs : List (String × PyVal) → List (String × PyVal)
  | [] => []
  | (k, v) :: rest => (k, sortDeep v) :: sortDeepKVs rest
end

mutual
/-- Serialization phase of `json.dumps` (members in list order; tuples dump
as arrays; default separators `", "` and `": "`). -/
def jsonDumpsRaw : PyVal → List Char
  | .none => "null".data
  | .bool b => (if b then "true" else "false").data
  | .int i => (toString i).data
  | .float q => (qRepr q).data
  | .str s => jsonStrLit s
  | .list xs => '[' :: jsonDumpsJoin xs ++ [']']
  | .tuple xs => '[' :: jsonDumpsJoin xs ++ [']']
  | .dict kvs => '{' :: jsonDumpsJoinKV kvs ++ ['}']

/-- Array elements joined by `", "`. -/
def jsonDumpsJoin : List PyVal → List Char
  | [] => []
  | [x] => jsonDumpsRaw x
  | x :: y :: rest => jsonDumpsRaw x ++ ',' :: ' ' :: jsonDumpsJoin (y :: rest)

/-- Object members joined by `", "` with `": "` separators. -/
def jsonDumpsJoinKV : List (String × PyVal) → List Char
  | [] => []
  | [(k, v)] => jsonStrLit k ++ ':' :: ' ' :: jsonDumpsRaw v
  | (k, v) :: y :: rest =>
    jsonStrLit k ++ ':' :: ' ' :: jsonDumpsRaw v ++ ',' :: ' ' ::
      jsonDumpsJoinKV (y :: rest)
end

/-- `json.dumps(v, sort_keys=True, default=str)`. -/
def jsonDumps (v : PyVal) : List Char := jsonDumpsRaw (sortDeep v)

/-! ## config_loader.py and fingerprint.py -/

/-- config_loader.ConfigSource (the parsed content as a value, plus raw
text). -/
structure ConfigSource where
  path : String
  content : PyVal
  raw_text : String

/-- The payload value `[{"path": ..., "content": ...}, ...]` serialized by
config_loader.canonical_payload. -/
def canonicalPayloadVal (sources : List ConfigSource) : PyVal :=
  PyVal.list (sources.map
    (fun src => PyVal.dict [("path", PyVal.str src.path), ("content", src.content)]))

/-- config_loader.canonical_payload: the canonical JSON string (as
characters). -/
def canonicalPayload (sources : List ConfigSource) : List Char :=
  jsonDumps (canonicalPayloadVal sources)

/-- The `configs` member of the canonical dict:
`json.loads(canonical_payload(config_sources)) if config_sources else []`
(`loads ∘ dumps` round-trips to `canonicalPayloadVal`; all reachable content
is JSON-serializable). -/
def configsField (config_sources : List ConfigSource) : PyVal :=
  if config_sources.isEmpty then PyVal.list []
  else canonicalPayloadVal config_sources

/-- fingerprint.build_fingerprint's canonical dict, serialized with sorted
keys. -/
def buildFingerprintPayload (command : String) (metadata : List (String × PyVal))
    (config_sources : List ConfigSource) (env_snapshot : List (String × PyVal)) :
    List Char :=
  jsonDumps (PyVal.dict
    [("command", PyVal.str command),
     ("metadata", PyVal.dict metadata),
     ("configs", configsField config_sources),
     ("env", PyVal.dict env_snapshot)])

/-- UTF-8 encoding (`.encode("utf-8")`). -/
def utf8Encode (cs : List Char) : List Nat :=
  cs.flatMap (fun c =>
    let n := c.toNat
    if n < 0x80 then [n]
    else if n < 0x800 then [0xC0 + n / 0x40, 0x80 + n % 0x40]
    else if n < 0x10000 then
      [0xE0 + n / 0x1000, 0x80 + n / 0x40 % 0x40, 0x80 + n % 0x40]
    else
      [0xF0 + n / 0x40000, 0x80 + n / 0x1000 % 0x40,
       0x80 + n / 0x40 % 0x40, 0x80 + n % 0x40])

/-! ### SHA-256 (`hashlib.sha256`) over byte lists -/

/-- Truncate to 32 bits. -/
def w32 (x : Nat) : Nat := x % 4294967296

/-- Right rotation of a 32-bit word. -/
def rotr (n x : Nat) : Nat := (x >>> n) + (x % 2 ^ n) * 2 ^ (32 - n)

/-- Bitwise complement of a 32-bit word. -/
def notW32 (x : Nat) : Nat := 4294967295 - x

/-- Round constants. -/
def sha256K : List Nat :=
  [1116352408, 1899447441, 3049323471, 3921009573, 961987163, 1508970993,
   2453635748, 2870763221, 3624381080, 310598401, 607225278, 1426881987,
   1925078388, 2162078206, 2614888103, 3248222580, 3835390401, 4022224774,
   264347078, 604807628, 770255983, 1249150122, 1555081692, 1996064986,
   2554220882, 2821834349, 2952996808, 3210313671, 3336571891, 3584528711,
   113926993, 338241895, 666307205, 773529912, 1294757372, 1396182291,
   1695183700, 1986661051, 2177026350, 2456956037, 2730485921, 2820302411,
   3259730800, 3345764771, 3516065817, 3600352804, 4094571909, 275423344,
   430227734, 506948616, 659060556, 883997877, 958139571, 1322822218,
   1537002063, 1747873779, 1955562222, 2024104815, 2227730452, 2361852424,
   2428436474, 2756734187, 3204031479, 3329325298]

/-- Initial hash values. -/
def sha256H0 : List Nat :=
  [1779033703, 3144134277, 1013904242, 2773480762,
   1359893119, 2600822924, 528734635, 1541459225]

/-- Big-endian byte rendering of fixed width. -/
def natToBytesBE (len n : Nat) : List Nat :=
  (List.range len).map (fun i => (n >>> (8 * (len - 1 - i))) % 256)

/-- SHA-256 padding: `0x80`, zeros to 56 mod 64, 8-byte bit length. -/
def sha256Pad (msg : List Nat) : List Nat :=
  let rem := (msg.length + 1) % 64
  let k := if rem ≤ 56 then 56 - rem else 56 + 64 - rem
  msg ++ 0x80 :: List.replicate k 0 ++ natToBytesBE 8 (8 * msg.length)

/-- Big-endian 32-bit words of a byte list. -/
def bytesToWordsBE : List Nat → List Nat
  | a :: b :: c :: d :: rest => (((a * 256 + b) * 256 + c) * 256 + d) :: bytesToWordsBE rest
  | _ => []

/-- 16-word blocks (the padded length is a multiple of 16 words). -/
def wordChunks16 : List Nat → List (List Nat)
  | w0 :: w1 :: w2 :: w3 :: w4 :: w5 :: w6 :: w7 ::
    w8 :: w9 :: w10 :: w11 :: w12 :: w13 :: w14 :: w15 :: rest =>
    [w0, w1, w2, w3, w4, w5, w6, w7, w8, w9, w10, w11, w12, w13, w14, w15] ::
      wordChunks16 rest
  | _ => []

/-- Message-schedule extension of a 16-word block to 64 words. -/
def sha256Schedule (block : List Nat) : List Nat :=
  (List.range 48).foldl
    (fun acc _ =>
      let n := acc.length
      let s0 := (rotr 7 (acc.getD (n - 15) 0)) ^^^ (rotr 18 (acc.getD (n - 15) 0)) ^^^
        (acc.getD (n - 15) 0 >>> 3)
      let s1 := (rotr 17 (acc.getD (n - 2) 0)) ^^^ (rotr 19 (acc.getD (n - 2) 0)) ^^^
        (acc.getD (n - 2) 0 >>> 10)
      acc ++ [w32 (acc.getD (n - 16) 0 + s0 + acc.getD (n - 7) 0 + s1)])
    block

/-- One SHA-256 compression round sequence over a block. -/
def sha256Compress (h : List Nat) (block : List Nat) : List Nat :=
  let ws := sha256Schedule block
  let out := (List.range 64).foldl
    (fun st i =>
      let a := st.getD 0 0
      let b := st.getD 1 0
      let c := st.getD 2 0
      let d := st.getD 3 0
      let e := st.getD 4 0
      let f := st.getD 5 0
      let g := st.getD 6 0
      let hh := st.getD 7 0
      let S1 := (rotr 6 e) ^^^ (rotr 11 e) ^^^ (rotr 25 e)
      let ch := (e &&& f) ^^^ (notW32 e &&& g)
      let t1 := w32 (hh + S1 + ch + sha256K.getD i 0 + ws.getD i 0)
      let S0 := (rotr 2 a) ^^^ (rotr 13 a) ^^^ (rotr 22 a)
      let mj := (a &&& b) ^^^ (a &&& c) ^^^ (b &&& c)
      let t2 := w32 (S0 + mj)
      [w32 (t1 + t2), a, b, c, w32 (d + t1), e, f, g])
    h
  List.zipWith (fun x y => w32 (x + y)) h out

/-- The eight 32-bit words of the SHA-256 digest of a byte list. -/
def sha256Words (msg : List Nat) : List Nat :=
  (wordChunks16 (bytesToWordsBE (sha256Pad msg))).foldl sha256Compress sha256H0

/-- The digest as a single natural number below `2^256`. -/
def sha256Nat (msg : List Nat) : Nat :=
  (sha256Words msg).foldl (fun acc w => acc * 4294967296 + w % 4294967296) 0

/-- `hashlib.sha256(..).hexdigest()`: 64 lowercase hex characters. -/
def sha256Hex (msg : List Nat) : String :=
  String.mk (hexOfNatFixed 64 (sha256Nat msg))

/-- fingerprint.build_fingerprint (lines 12-25): the SHA-256 hex digest of
the canonical JSON serialization of (command, metadata, configs, env). -/
def buildFingerprint (command : String) (metadata : List (String × PyVal))
    (config_sources : List ConfigSource) (env_snapshot : List (String × PyVal)) :
    String :=
  sha256Hex (utf8Encode
    (buildFingerprintPayload command metadata config_sources env_snapshot))

/-! ## reporting.py

String rendering helpers.  Python float formatting (`:.4f`, `:.6g`, `repr`)
is modelled over rationals: fixed-point formats round half to even; the
general format `:.6g` falls back to the model printer `qRepr` (it is only
reachable through `_render_metrics`'s reference branch, which needs a
reconstructed reference record — and reconstruction always fails, see
`diffAgainstHistory`). -/

/-- Join strings with a separator (`sep.join(list)`). -/
def joinSep (sep : String) : List String → String
  | [] => ""
  | [x] => x
  | x :: y :: rest => x ++ sep ++ joinSep sep (y :: rest)

/-- Floor of a rational. -/
def qFloor (x : ℚ) : Int := Int.fdiv x.num (x.den : Int)

/-- Round half to even (Python's rounding for fixed-point formats). -/
def qRoundHalfEven (x : ℚ) : Int :=
  let f := qFloor x
  let frac := qSub x (mkRat f 1)
  if frac < mkRat 1 2 then f
  else if mkRat 1 2 < frac then f + 1
  else if f % 2 = 0 then f else f + 1

/-- `format(q, ".Nf")`. -/
def formatFixedDec (decimals : Nat) (q : ℚ) : String :=
  let n := qRoundHalfEven (qMul q (mkRat (10 ^ decimals) 1))
  let (sign, m) : String × Nat := if n < 0 then ("-", (-n).toNat) else ("", n.toNat)
  let digits := (toString m).data
  let padded :=
    if digits.length ≤ decimals then
      List.replicate (decimals + 1 - digits.length) '0' ++ digits
    else digits
  let cut := padded.length - decimals
  sign ++ String.mk (padded.take cut) ++ "." ++ String.mk (padded.drop cut)

/-- `format(q, "+.4f")`. -/
def formatSigned4 (q : ℚ) : String :=
  if q < 0 then formatFixedDec 4 q else "+" ++ formatFixedDec 4 q

/-- Model of `format(q, ".6g")` (only reachable in a dead branch). -/
def format6g (q : ℚ) : String := qRepr q

/-- `record.name or record.run_id` (an empty name is falsy). -/
def recordTitle (r : Record) : String :=
  match r.name with
  | some s => if s = "" then r.run_id else s
  | Option.none => r.run_id

/-- Python truthiness of a value. -/
def pyTruthy : PyVal → Bool
  | .none => false
  | .bool b => b
  | .int i => i ≠ 0
  | .float q => q ≠ 0
  | .str s => s ≠ ""
  | .list xs => !xs.isEmpty
  | .tuple xs => !xs.isEmpty
  | .dict kvs => !kvs.isEmpty

/-- reporting.ReportGenerator._render_current_config. -/
def renderCurrentConfig (record : Record) : String :=
  let cmdLines : List String :=
    if !record.config_values.isEmpty && dictMem "_cmd_params" record.config_values then
      match dictGetNone record.config_values "_cmd_params" with
      | .dict cmd_params =>
        if !cmd_params.isEmpty then
          ["### Command Parameters", "| Parameter | Value |", "| --- | --- |"] ++
            cmd_params.map (fun kv => "| `" ++ kv.1 ++ "` | " ++ pyStr kv.2 ++ " |") ++
            [""]
        else []
      | _ => []
    else []
  let metaLines : List String :=
    if !record.metadata.isEmpty then
      ["### Metadata", "| Key | Value |", "| --- | --- |"] ++
        record.metadata.map (fun kv => "| `" ++ kv.1 ++ "` | " ++ pyStr kv.2 ++ " |") ++
        [""]
    else []
  let config_items := record.config_values.filter (fun kv => kv.1 ≠ "_cmd_params")
  let cfgLines : List String :=
    if !config_items.isEmpty then
      ["### Config Files", "| Key | Value |", "| --- | --- |"] ++
        (config_items.take 20).map (fun kv => "| `" ++ kv.1 ++ "` | " ++ pyStr kv.2 ++ " |") ++
        (if config_items.length > 20 then
          ["| ... | *" ++ toString (config_items.length - 20) ++ " more items* |"]
         else []) ++
        [""]
    else []
  let lines := cmdLines ++ metaLines ++ cfgLines
  if lines.isEmpty then "*No configuration data*" else joinSep "\n" lines

/-- reporting._render_metrics. -/
def renderMetrics (record : Record) (reference_record : Option Record) : String :=
  if record.metrics.isEmpty then
    if !record.config_values.isEmpty && dictMem "_cmd_params" record.config_values then
      match dictGetNone record.config_values "_cmd_params" with
      | .dict cmd_params =>
        joinSep "\n"
          (["*No metrics yet. Command parameters captured:*\n",
            "| Parameter | Value |", "| --- | --- |"] ++
           cmd_params.map (fun kv => "| " ++ kv.1 ++ " | " ++ pyStr kv.2 ++ " |") ++
           ["\n💡 *Metrics will appear after your script writes `metrics.json`*"])
      | _ =>
        "No metrics yet. Your script can write metrics to `metrics.json` for automatic tracking."
    else
      "No metrics yet. Your script can write metrics to `metrics.json` for automatic tracking."
  else
    match reference_record with
    | some ref =>
      if !ref.metrics.isEmpty then
        joinSep "\n"
          (["| Metric | Current | Reference | Change |", "| --- | --- | --- | --- |"] ++
           record.metrics.map (fun kv =>
             let current_str := format6g kv.2
             match lookupStr kv.1 ref.metrics with
             | some rv =>
               let delta := qSub kv.2 rv
               let change_str :=
                 if qAbs delta < mkRat 1 1000000 then "—"
                 else
                   let sign := if 0 < delta then "+" else ""
                   let base := sign ++ format6g delta
                   if mkRat 1 1000000 < qAbs rv then
                     base ++ " (" ++ sign ++ formatFixedDec 1 (qMul (qDiv delta (qAbs rv)) 100) ++ "%)"
                   else base
               "| " ++ kv.1 ++ " | " ++ current_str ++ " | " ++ format6g rv ++ " | " ++
                 change_str ++ " |"
             | Option.none =>
               "| " ++ kv.1 ++ " | " ++ current_str ++ " | — | — |"))
      else
        joinSep "\n"
          (["| Metric | Value |", "| --- | --- |"] ++
           record.metrics.map (fun kv => "| " ++ kv.1 ++ " | " ++ pyStr (PyVal.float kv.2) ++ " |"))
    | Option.none =>
      joinSep "\n"
        (["| Metric | Value |", "| --- | --- |"] ++
         record.metrics.map (fun kv => "| " ++ kv.1 ++ " | " ++ pyStr (PyVal.float kv.2) ++ " |"))

/-- reporting._render_config_diff (the report layer expands `_tracked_params`
for display). -/
def renderConfigDiff (diff : DiffResult) : String :=
  if diff.config_differences.isEmpty then
    "*No changes from previous run. Current configuration shown in metadata below.*"
  else
    let lines := (diff.config_differences.take 15).flatMap
      (fun entry =>
        match entry.current, entry.reference with
        | .dict cur, .dict ref =>
          if entry.key = "_tracked_params" then
            "**参数变化**：\n" ::
              ((sortedKeyUnion cur ref).filterMap (fun param_key =>
                let cur_val := (lookupStr param_key cur).getD (PyVal.str "—")
                let ref_val := (lookupStr param_key ref).getD (PyVal.str "—")
                if pyEq cur_val ref_val then Option.none
                else some ("- **" ++ param_key ++ "**: `" ++ pyStr ref_val ++ "` → `" ++
                  pyStr cur_val ++ "`")))
          else
            ["- **" ++ entry.key ++ "**: `" ++ pyStr entry.reference ++ "` → `" ++
              pyStr entry.current ++ "`"]
        | _, _ =>
          ["- **" ++ entry.key ++ "**: `" ++ pyStr entry.reference ++ "` → `" ++
            pyStr entry.current ++ "`"])
    let lines := lines ++
      (if diff.config_differences.length > 15 then
        ["\n*… 还有 " ++ toString (diff.config_differences.length - 15) ++ " 项差异*"]
       else [])
    if lines.isEmpty then "*No changes*" else joinSep "\n" lines

/-- reporting._suggestions. -/
def suggestionsOf (record : Record) (diff : DiffResult) : List String :=
  let items : List String :=
    (if record.status ≠ "succeeded" then
      ["Run finished abnormally. Check command.log for stack traces and consider lowering batch size if it was an OOM."]
     else []) ++
    (match diff.metric_delta with
     | some md =>
       let delta := md.2.2.2
       let direction := if delta < 0 then "decreased" else "increased"
       ["Primary metric " ++ md.1 ++ " " ++ direction ++ " by " ++
        formatFixedDec 4 (qAbs delta) ++ " vs " ++
        (diff.reference_type.getD "reference") ++ " run. Revisit key config changes below."]
     | Option.none => []) ++
    (if !diff.config_differences.isEmpty then
      ["Most divergent hyperparameters: " ++
       joinSep ", " ((diff.config_differences.take 3).map ConfigDiffEntry.key) ++
       ". Validate whether these were intentional before launching the next run."]
     else [])
  let items := if items.isEmpty then
    ["Fingerprint unchanged and metrics steady. Consider exploring new configs or enabling advanced snapshot hooks for richer insights."]
  else items
  items.take record.suggestion_count.toNat

/-- `list.insert(n, x)` (Python clamps the index). -/
def insertAt {α : Type} (n : Nat) (x : α) (l : List α) : List α :=
  l.take n ++ x :: l.drop n

/-- reporting.ReportGenerator._render_markdown. -/
def renderMarkdown (record : Record) (diff : DiffResult) (suggestions : List String) :
    String :=
  let blocks : List String :=
    ["# SciAgent Report — " ++ recordTitle record,
     "*Status*: **" ++ record.status ++ "**  |  *Fingerprint*: `" ++ record.fingerprint ++ "`",
     "## Command",
     "```\n" ++ record.command ++ "\n```",
     "## Metrics",
     renderMetrics record diff.reference_record] ++
    (if !record.config_values.isEmpty || !record.metadata.isEmpty then
      ["## Configuration", renderCurrentConfig record]
     else []) ++
    ["## Config Diff", renderConfigDiff diff, "## Suggestions",
     (let s := joinSep "\n" (suggestions.map (fun item => "- " ++ item))
      if s = "" then "- No suggestions" else s)]
  let blocks :=
    match diff.metric_delta with
    | some md =>
      insertAt 4
        (joinSep "\n"
          ["## Primary Metric",
           "Reference (" ++ (diff.reference_type.getD "n/a") ++ "): " ++ pyStr (PyVal.float md.2.2.1),
           "Current: " ++ pyStr (PyVal.float md.2.1) ++ " (Δ " ++ formatSigned4 md.2.2.2 ++ ")"])
        blocks
    | Option.none => blocks
  joinSep "\n\n" blocks

/-- reporting.ReportGenerator.generate: compute and install suggestions,
render the report, record the artifact paths.  Returns the updated record
and the report file content (`curves.png` carries a fixed placeholder). -/
def reporterGenerate (run_dir : String) (record : Record) (diff : DiffResult) :
    Record × String :=
  let suggestions := suggestionsOf record diff
  let record := { record with suggestions := suggestions }
  let report := renderMarkdown record diff suggestions
  let record := { record with
    artifact_paths :=
      dictSet (dictSet record.artifact_paths "report" (run_dir ++ "/report.md"))
        "curves" (run_dir ++ "/curves.png") }
  (record, report)

/-! ## guardian.py

RunGuardian.execute is embedded as a transition function over an explicit
state.  The child process, the clock and the probed files are inputs
(`GuardianEnv`): the command's termination behaviour arrives as a
`RunOutcome`, `utcnow` as a timestamp, and the contents of the optional
`metrics.json` / `params.json` files as optional strings (the path-probing
of `_auto_detect_metrics_file` is abstracted into whether a file was
found). -/

/-- How `_run_command` (or anything before it) terminated inside the `try`:
a child exit code, a `KeyboardInterrupt`, or any other exception. -/
inductive RunOutcome : Type where
  | completed (exit_code : Int)
  | interrupt
  | failure (msg : String)

/-- What `execute` does after the `finally` block: return the exit code,
re-raise the interrupt, or re-raise the exception. -/
inductive ExecResult : Type where
  | returned (code : Int)
  | raisedInterrupt
  | raisedError (msg : String)

/-- The run-time inputs of one `execute` call. -/
structure GuardianEnv where
  outcome : RunOutcome
  now : ℚ
  snapNow : String
  specMetrics : List (String × PyVal)
  metricsFile : Option String
  paramsFile : Option String

/-- The effect state threaded through `execute`. -/
structure GuardianState where
  record : Record
  historyRuns : List Summary
  runRecordFile : Option PyVal
  reportFile : Option String
  curvesFile : Bool
  snapshotFile : Option PyVal
  runDir : String

/-- guardian.RunGuardian._safe_float_map: keep the values `float()`
accepts. -/
def pyFloatOfVal : PyVal → Option ℚ
  | .int i => some ((i : ℚ))
  | .float q => some q
  | .bool b => some (if b then 1 else 0)
  | .str s => pyFloatOfStr (pyStripStr s)
  | _ => Option.none

/-- guardian.RunGuardian._safe_float_map. -/
def safeFloatMap (values : List (String × PyVal)) : List (String × ℚ) :=
  values.foldl
    (fun out kv =>
      match pyFloatOfVal kv.2 with
      | some f => dictSet out kv.1 f
      | Option.none => out) []

/-- guardian.RunGuardian._auto_detect_primary_metric. -/
def autoDetectPrimaryMetric (metrics : List (String × ℚ)) : Option String :=
  if metrics.isEmpty then Option.none
  else
    let metric_names := dictKeys metrics
    let hit := fun (pats : List String) =>
      pats.findSome? (fun p =>
        metric_names.find? (fun n => containsSub p.data (toLowerStr n).data))
    match hit ["accuracy", "acc", "f1_score", "f1", "precision", "recall", "auc",
              "map", "ap"] with
    | some n => some n
    | Option.none =>
      match hit ["loss", "error", "mse", "mae", "rmse"] with
      | some n => some n
      | Option.none => metric_names.head?

/-- guardian.RunGuardian._aggregate_metrics (lines 157-194): merge the
spec-provided metrics with the metrics file, and stash `params.json` (when
present and truthy) into `config_values["_tracked_params"]`.  Returns the
combined metrics and the updated configuration values. -/
def aggregateMetrics (spec_metrics : List (String × PyVal))
    (metricsFile paramsFile : Option String)
    (config_values : List (String × PyVal)) :
    List (String × ℚ) × List (String × PyVal) :=
  let combined := dictUpdate [] (safeFloatMap spec_metrics)
  let combined :=
    match metricsFile with
    | some text =>
      (match jsonLoads text with
       | some (PyVal.dict kvs) => dictUpdate combined (safeFloatMap kvs)
       | _ => combined)
    | Option.none => combined
  let config_values :=
    match paramsFile with
    | some text =>
      (match jsonLoads text with
       | some params_data =>
         if pyTruthy params_data then
           dictSet config_values "_tracked_params" params_data
         else config_values
       | Option.none => config_values)
    | Option.none => config_values
  (combined, config_values)

/-- Model of `datetime.isoformat() + "Z"` on the rational timestamps. -/
def isoZ (t : ℚ) : String := qRepr t ++ "Z"

/-- models.RunRecord.to_dict. -/
def recordToDict (r : Record) : PyVal :=
  PyVal.dict
    [("run_id", PyVal.str r.run_id),
     ("name", r.name.elim PyVal.none PyVal.str),
     ("command", PyVal.str r.command),
     ("workdir", PyVal.str r.workdir),
     ("fingerprint", PyVal.str r.fingerprint),
     ("env_snapshot", PyVal.dict r.env_snapshot),
     ("metadata", PyVal.dict r.metadata),
     ("status", PyVal.str r.status),
     ("exit_code", r.exit_code.elim PyVal.none PyVal.int),
     ("started_at", PyVal.str (isoZ r.started_at)),
     ("ended_at", r.ended_at.elim PyVal.none (fun t => PyVal.str (isoZ t))),
     ("duration_seconds", r.duration_seconds.elim PyVal.none PyVal.float),
     ("metrics", PyVal.dict (r.metrics.map (fun kv => (kv.1, PyVal.float kv.2)))),
     ("primary_metric", r.primary_metric.elim PyVal.none PyVal.str),
     ("log_path", r.log_path.elim PyVal.none PyVal.str),
     ("artifact_paths", PyVal.dict (r.artifact_paths.map (fun kv => (kv.1, PyVal.str kv.2)))),
     ("suggestions", PyVal.list (r.suggestions.map PyVal.str)),
     ("config_values", PyVal.dict r.config_values)]

/-- snapshots.SnapshotManager.save_last: the payload written to
`snapshots/last.ckpt.json`. -/
def snapshotSaveLast (snapNow reason : String) (extra : Option (List (String × PyVal))) :
    PyVal :=
  let payload := [("saved_at", PyVal.str snapNow), ("reason", PyVal.str reason)]
  PyVal.dict (match extra with
    | some ex => dictUpdate payload ex
    | Option.none => payload)

/-- guardian.RunGuardian.execute, `finally` block (lines 93-103): aggregate
metrics (also updating `config_values` with `_tracked_params`), merge them
into the record, auto-detect a primary metric if none is set, diff against
history, generate the report, persist `run_record.json` and append the
history summary. -/
def guardianFinalize (st1 : GuardianState) (env : GuardianEnv) : GuardianState :=
  let (metrics, config_values) :=
    aggregateMetrics env.specMetrics env.metricsFile env.paramsFile
      st1.record.config_values
  let record1 := { st1.record with config_values := config_values }
  let record2 :=
    if metrics.isEmpty then record1
    else
      let r := { record1 with metrics := dictUpdate record1.metrics metrics }
      if !truthyOpt r.primary_metric then
        { r with primary_metric := autoDetectPrimaryMetric metrics }
      else r
  let diff := diffAgainstHistory record2 st1.historyRuns
  let (record3, report) := reporterGenerate st1.runDir record2 diff
  let st2 := { st1 with
    record := record3,
    reportFile := some report,
    curvesFile := true,
    runRecordFile := some (recordToDict record3) }
  { st2 with historyRuns := historyAppend st2.historyRuns record3 }

/-- guardian.RunGuardian.execute (lines 76-108): the `try` arms set the
record's final status (saving a snapshot on the exception paths); the
`finally` block always runs; then an interrupt or exception is re-raised,
else `exit_code or 0` is returned. -/
def guardianExecute (st : GuardianState) (env : GuardianEnv) :
    ExecResult × GuardianState :=
  let (st1, interrupted, caught) : GuardianState × Bool × Option String :=
    match env.outcome with
    | .completed code =>
      let status := if code = 0 then "succeeded" else "failed"
      ({ st with record := st.record.finish status (some code) env.now },
       false, Option.none)
    | .interrupt =>
      let stS := { st with
        snapshotFile := some (snapshotSaveLast env.snapNow "keyboard_interrupt" Option.none) }
      ({ stS with record := stS.record.finish "interrupted" Option.none env.now },
       true, Option.none)
    | .failure msg =>
      let stS := { st with
        snapshotFile := some (snapshotSaveLast env.snapNow "exception"
          (some [("error", PyVal.str msg)])) }
      ({ stS with record := stS.record.finish "failed" Option.none env.now },
       false, some msg)
  let st3 := guardianFinalize st1 env
  if interrupted then (ExecResult.raisedInterrupt, st3)
  else
    match caught with
    | some msg => (ExecResult.raisedError msg, st3)
    | Option.none => (ExecResult.returned (st3.record.exit_code.getD 0), st3)

/-! ## Concrete instances used by the claim theorems -/

/-- The current configuration map of the diff example:
`{"_tracked_params": {"lr": 0.01}}`. -/
def c1current : List (String × PyVal) :=
  [("_tracked_params", PyVal.dict [("lr", PyVal.float (mkRat 1 100))])]

/-- The reference configuration map of the diff example:
`{"_tracked_params": {"lr": 0.02, "batch_size": 32}}`. -/
def c1reference : List (String × PyVal) :=
  [("_tracked_params", PyVal.dict
    [("lr", PyVal.float (mkRat 1 50)), ("batch_size", PyVal.int 32)])]

/-- A history summary carrying the reference configuration (the
`full_reference` argument `diff_against_history` passes to
`_diff_configs`). -/
def c1refSummary : Summary :=
  { run_id := "prev", name := Option.none, status := "succeeded",
    fingerprint := "", metrics := [], primary_metric := Option.none,
    duration_seconds := Option.none, ended_at := Option.none,
    config_values := c1reference }

/-- The log text of the Keras-style parsing example. -/
def c4text : String :=
  "Epoch 2/5\nloss: 0.4567 - accuracy: 0.7890 - val_loss: 0.4321 - val_accuracy: 0.8234"

/-- A history summary with one metric (for the `best` examples). -/
def mkSummary (id : String) (metrics : List (String × ℚ)) : Summary :=
  { run_id := id, name := Option.none, status := "succeeded", fingerprint := "",
    metrics := metrics, primary_metric := Option.none,
    duration_seconds := Option.none, ended_at := Option.none, config_values := [] }

/-- History with `val_loss` values `[0.5, 0.2, 0.8]`. -/
def c5lossRuns : List Summary :=
  [mkSummary "r1" [("val_loss", mkRat 1 2)],
   mkSummary "r2" [("val_loss", mkRat 1 5)],
   mkSummary "r3" [("val_loss", mkRat 4 5)]]

/-- History with `accuracy` values `[0.5, 0.9, 0.3]`. -/
def c5accRuns : List Summary :=
  [mkSummary "a1" [("accuracy", mkRat 1 2)],
   mkSummary "a2" [("accuracy", mkRat 9 10)],
   mkSummary "a3" [("accuracy", mkRat 3 10)]]

/-- The parsed module of the extraction example:
`lr = 0.001` and `config = {"lr": 0.01, "batch_size": 64}`. -/
def c7stmts : List PyStmt :=
  [PyStmt.assign [PyTarget.name "lr"] (PyExpr.const (PyVal.float (mkRat 1 1000))),
   PyStmt.assign [PyTarget.name "config"]
     (PyExpr.dictLit
       [(some (PyExpr.const (PyVal.str "lr")), PyExpr.const (PyVal.float (mkRat 1 100))),
        (some (PyExpr.const (PyVal.str "batch_size")), PyExpr.const (PyVal.int 64))])]

/-- A minimal run record for the execute example. -/
def c2record : Record :=
  { run_id := "20240101_000000_demo", name := some "demo", command := "python train.py",
    workdir := "/work", fingerprint := "f", env_snapshot := [], metadata := [],
    status := "pending", exit_code := Option.none, started_at := 0,
    ended_at := Option.none, duration_seconds := Option.none, metrics := [],
    primary_metric := Option.none, log_path := some "/state/runs/r/command.log",
    artifact_paths := [], suggestion_count := 3, suggestions := [],
    config_values := [] }

/-- The guardian state before the interrupted run of the example. -/
def c2state : GuardianState :=
  { record := c2record, historyRuns := [], runRecordFile := Option.none,
    reportFile := Option.none, curvesFile := false, snapshotFile := Option.none,
    runDir := "/state/runs/r" }

/-- An environment whose command is interrupted mid-run. -/
def c2env : GuardianEnv :=
  { outcome := RunOutcome.interrupt, now := 5, snapNow := "t",
    specMetrics := [], metricsFile := Option.none, paramsFile := Option.none }

/-- The last write for a key in a sequence of dict writes. -/
def lastWrite {α : Type} (writes : List (String × α)) (k : String) : Option α :=
  lookupStr k writes.reverse

/-! # Theorems -/

/-! ## Bridge lemmas: the kernel-computable rational wrappers agree with the
standard field operations on `ℚ`. -/

theorem denq_ne (a : ℚ) : (a.den : ℚ) ≠ 0 := by exact_mod_cast a.den_ne_zero

theorem num_den_mul (a : ℚ) : (a.num : ℚ) = a * a.den :=
  ((eq_div_iff (denq_ne a)).mp (Rat.num_div_den a).symm).symm

theorem qAdd_eq (a b : ℚ) : qAdd a b = a + b := by
  rw [qAdd, Rat.mkRat_eq_div]; push_cast
  rw [eq_comm, eq_div_iff (by positivity), num_den_mul, num_den_mul]; ring

theorem qSub_eq (a b : ℚ) : qSub a b = a - b := by
  rw [qSub, Rat.mkRat_eq_div]; push_cast
  rw [eq_comm, eq_div_iff (by positivity), num_den_mul, num_den_mul]; ring

theorem qMul_eq (a b : ℚ) : qMul a b = a * b := by
  rw [qMul, Rat.mkRat_eq_div]; push_cast
  rw [eq_comm, eq_div_iff (by positivity), num_den_mul, num_den_mul]; ring

theorem qNeg_eq (a : ℚ) : qNeg a = -a := by
  rw [qNeg, Rat.mkRat_eq_div]; push_cast
  rw [eq_comm, eq_div_iff (denq_ne a), num_den_mul]; ring

theorem qInv_eq (b : ℚ) : qInv b = b⁻¹ := by
  rw [qInv, Rat.inv_def', Rat.divInt_eq_div]
  rcases lt_trichotomy b.num 0 with h | h | h
  · rw [if_pos h, Rat.mkRat_eq_div]
    push_cast [Int.cast_natAbs]
    rw [abs_of_neg (by exact_mod_cast h), neg_div_neg_eq]
  · rw [if_neg (by omega), Rat.mkRat_eq_div, h]
    norm_num
  · rw [if_neg (by omega), Rat.mkRat_eq_div]
    push_cast [Int.cast_natAbs]
    rw [abs_of_pos (by exact_mod_cast h)]

theorem qDiv_eq (a b : ℚ) : qDiv a b = a / b := by
  rw [qDiv, qMul_eq, qInv_eq, div_eq_mul_inv]

theorem qAbs_eq (a : ℚ) : qAbs a = |a| := by
  rw [qAbs, Rat.mkRat_eq_div]
  push_cast [Int.cast_natAbs]
  rw [← abs_of_pos (show (0:ℚ) < (a.den : ℚ) by exact_mod_cast Rat.den_pos a),
    ← abs_div, Rat.num_div_den]

theorem qPowInt_eq (q : ℚ) (k : Int) : qPowInt q k = q ^ k := by
  rw [qPowInt]
  split
  · rw [← zpow_natCast, Int.toNat_of_nonneg (by assumption)]
  · rw [qInv_eq, ← zpow_natCast, Int.toNat_of_nonneg (by omega), ← zpow_neg, neg_neg]

/-! ## Association-list lemmas (Python dict semantics) -/

theorem lookupStr_dictSet {α : Type} (d : List (String × α)) (k' k : String) (v : α) :
    lookupStr k (dictSet d k' v) = if k' = k then some v else lookupStr k d := by
  induction d with
  | nil => simp [dictSet, lookupStr]
  | cons p rest ih =>
    by_cases h1 : p.1 = k'
    · simp only [dictSet, h1, if_pos rfl]
      by_cases h2 : k' = k
      · subst h2; simp [lookupStr, h1]
      · simp [lookupStr, h1, h2]
    · cases p with
    | mk k0 v0 =>
      simp only [dictSet, if_neg h1]
      by_cases h2 : k0 = k
      · subst h2
        have : ¬ k' = k0 := fun e => h1 e.symm
        simp [lookupStr, this]
      · simp [lookupStr, h2, ih]

theorem lookupStr_dictSet_self {α : Type} (d : List (String × α)) (k : String) (v : α) :
    lookupStr k (dictSet d k v) = some v := by
  rw [lookupStr_dictSet, if_pos rfl]

theorem lookupStr_dictSet_ne {α : Type} (d : List (String × α)) (k' k : String) (v : α)
    (h : k' ≠ k) : lookupStr k (dictSet d k' v) = lookupStr k d := by
  rw [lookupStr_dictSet, if_neg h]

theorem lookupStr_append {α : Type} (a b : List (String × α)) (k : String) :
    lookupStr k (a ++ b) =
      match lookupStr k a with
      | some v => some v
      | Option.none => lookupStr k b := by
  induction a with
  | nil => simp [lookupStr]
  | cons p rest ih =>
    by_cases h : p.1 = k
    · simp [lookupStr, h]
    · simp [lookupStr, h, ih]

/-- The final binding of a key after a sequence of writes: its last write,
else its binding in the base dict. -/
theorem lookupStr_dictUpdate {α : Type} (d src : List (String × α)) (k : String) :
    lookupStr k (dictUpdate d src) =
      match lookupStr k src.reverse with
      | some v => some v
      | Option.none => lookupStr k d := by
  induction src generalizing d with
  | nil => simp [dictUpdate, lookupStr]
  | cons p rest ih =>
    have step : dictUpdate d (p :: rest) = dictUpdate (dictSet d p.1 p.2) rest := rfl
    rw [step, ih, List.reverse_cons, lookupStr_append]
    cases hr : lookupStr k rest.reverse with
    | some v => rfl
    | none =>
      simp only []
      rw [lookupStr_dictSet]
      by_cases h : p.1 = k
      · subst h; simp [lookupStr]
      · simp [lookupStr, h]

theorem dictSet_dictSet_same {α : Type} (d : List (String × α)) (k : String) (v w : α) :
    dictSet (dictSet d k v) k w = dictSet d k w := by
  induction d with
  | nil => simp [dictSet]
  | cons p rest ih =>
    by_cases h : p.1 = k
    · simp [dictSet, h]
    · simp [dictSet, h, ih]

/-! ## Claim theorems -/

/-- C1: the spec says `_diff_configs` flattens both configuration maps
(hoisting `_code_config` / `_tracked_params` / `_cmd_params` inner keys and
dotting other nested keys) and, on the example, reports differences for
`lr` and `batch_size`.  The code performs no flattening: evaluated on the
example — current `{"_tracked_params": {"lr": 0.01}}` against reference
`{"_tracked_params": {"lr": 0.02, "batch_size": 32}}` — it reports exactly
one top-level difference, at the key `_tracked_params`, not the hoisted
keys the spec describes. -/
theorem C1_diff_configs_does_not_flatten :
    diffConfigs c1current c1reference (some c1refSummary) =
      [{ key := "_tracked_params",
         current := PyVal.dict [("lr", PyVal.float (mkRat 1 100))],
         reference := PyVal.dict
           [("lr", PyVal.float (mkRat 1 50)), ("batch_size", PyVal.int 32)] }] ∧
    (diffConfigs c1current c1reference (some c1refSummary)).map ConfigDiffEntry.key =
      ["_tracked_params"] :=
  ⟨rfl, rfl⟩

/-- C4: parsing the Keras-style log text
`"Epoch 2/5\nloss: 0.4567 - accuracy: 0.7890 - val_loss: 0.4321 - val_accuracy: 0.8234"`
yields final metrics `final_loss = 0.4567`, `final_accuracy = 0.7890`,
`final_val_loss = 0.4321`, `final_val_accuracy = 0.8234` and
`epochs_completed = 2`. -/
theorem C4_keras_log_parse :
    lookupStr "final_loss" (logParse c4text).final_metrics =
      some (PyVal.float (mkRat 4567 10000)) ∧
    lookupStr "final_accuracy" (logParse c4text).final_metrics =
      some (PyVal.float (mkRat 789 1000)) ∧
    lookupStr "final_val_loss" (logParse c4text).final_metrics =
      some (PyVal.float (mkRat 4321 10000)) ∧
    lookupStr "final_val_accuracy" (logParse c4text).final_metrics =
      some (PyVal.float (mkRat 4117 5000)) ∧
    lookupStr "epochs_completed" (logParse c4text).final_metrics =
      some (PyVal.int 2) :=
  ⟨rfl, rfl, rfl, rfl, rfl⟩

/-- C8: `parse_command_params("--epochs 50 --dry-run --lr=1e-4")` yields
exactly `epochs = 50` (int), `lr = 0.0001` (float, from the exponent
notation) and `dry-run = True` (a boolean flag from the valueless long
option). -/
theorem C8_parse_command_params_example :
    parseCommandParams "--epochs 50 --dry-run --lr=1e-4" =
      [("epochs", PyVal.int 50), ("lr", PyVal.float (mkRat 1 10000)),
       ("dry-run", PyVal.bool true)] :=
  rfl

/-- C10 counterexample: in `"--lr -0.5 --lr=3"` the long option `--lr` is
followed by the whitespace-separated token `-0.5`, yet `lr` maps to the
integer `3` (captured by the later `--lr=3` occurrence), not to the boolean
`True` the claim asserts. -/
theorem C10_counterexample_later_value_wins :
    parseCommandParams "--lr -0.5 --lr=3" = [("lr", PyVal.int 3)] ∧
    lookupStr "lr" (parseCommandParams "--lr -0.5 --lr=3") ≠
      some (PyVal.bool true) := by
  refine ⟨rfl, ?_⟩
  rw [show parseCommandParams "--lr -0.5 --lr=3" = [("lr", PyVal.int 3)] from rfl]
  simp [lookupStr]

/-! ## Selection lemmas for Python `min` / `max` with a key -/

theorem foldl_min_spec {α : Type} (f : α → ℚ) (l : List α) (b : α) :
    (l.foldl (fun b y => if f y < f b then y else b) b = b ∨
      l.foldl (fun b y => if f y < f b then y else b) b ∈ l) ∧
    f (l.foldl (fun b y => if f y < f b then y else b) b) ≤ f b ∧
    ∀ x ∈ l, f (l.foldl (fun b y => if f y < f b then y else b) b) ≤ f x := by
  induction l generalizing b with
  | nil => simp
  | cons y ys ih =>
    simp only [List.foldl_cons]
    by_cases h : f y < f b
    · rw [if_pos h]
      obtain ⟨hm, hb, hall⟩ := ih y
      refine ⟨Or.inr ?_, le_trans hb (le_of_lt h), ?_⟩
      · rcases hm with h' | h'
        · exact List.mem_cons.mpr (Or.inl h')
        · exact List.mem_cons_of_mem y h'
      · intro x hx
        rcases List.mem_cons.mp hx with h' | h'
        · exact h' ▸ hb
        · exact hall x h'
    · rw [if_neg h]
      obtain ⟨hm, hb, hall⟩ := ih b
      refine ⟨?_, hb, ?_⟩
      · rcases hm with h' | h'
        · exact Or.inl h'
        · exact Or.inr (List.mem_cons_of_mem y h')
      · intro x hx
        rcases List.mem_cons.mp hx with h' | h'
        · exact h' ▸ le_trans hb (le_of_not_lt h)
        · exact hall x h'

theorem foldl_max_spec {α : Type} (f : α → ℚ) (l : List α) (b : α) :
    (l.foldl (fun b y => if f y > f b then y else b) b = b ∨
      l.foldl (fun b y => if f y > f b then y else b) b ∈ l) ∧
    f b ≤ f (l.foldl (fun b y => if f y > f b then y else b) b) ∧
    ∀ x ∈ l, f x ≤ f (l.foldl (fun b y => if f y > f b then y else b) b) := by
  induction l generalizing b with
  | nil => simp
  | cons y ys ih =>
    simp only [List.foldl_cons]
    by_cases h : f y > f b
    · rw [if_pos h]
      obtain ⟨hm, hb, hall⟩ := ih y
      refine ⟨Or.inr ?_, le_trans (le_of_lt h) hb, ?_⟩
      · rcases hm with h' | h'
        · exact List.mem_cons.mpr (Or.inl h')
        · exact List.mem_cons_of_mem y h'
      · intro x hx
        rcases List.mem_cons.mp hx with h' | h'
        · exact h' ▸ hb
        · exact hall x h'
    · rw [if_neg h]
      obtain ⟨hm, hb, hall⟩ := ih b
      refine ⟨?_, hb, ?_⟩
      · rcases hm with h' | h'
        · exact Or.inl h'
        · exact Or.inr (List.mem_cons_of_mem y h')
      · intro x hx
        rcases List.mem_cons.mp hx with h' | h'
        · exact h' ▸ le_trans (le_of_not_lt h) hb
        · exact hall x h'

theorem pyMinBy_spec {α : Type} (f : α → ℚ) (x : α) (xs : List α) :
    ∃ m, pyMinBy f (x :: xs) = some m ∧ m ∈ x :: xs ∧ ∀ z ∈ x :: xs, f m ≤ f z := by
  obtain ⟨hm, hb, hall⟩ := foldl_min_spec f xs x
  refine ⟨_, rfl, ?_, ?_⟩
  · rcases hm with h' | h'
    · exact List.mem_cons.mpr (Or.inl h')
    · exact List.mem_cons_of_mem x h'
  · intro z hz
    rcases List.mem_cons.mp hz with h' | h'
    · exact h' ▸ hb
    · exact hall z h'

theorem pyMaxBy_spec {α : Type} (f : α → ℚ) (x : α) (xs : List α) :
    ∃ m, pyMaxBy f (x :: xs) = some m ∧ m ∈ x :: xs ∧ ∀ z ∈ x :: xs, f z ≤ f m := by
  obtain ⟨hm, hb, hall⟩ := foldl_max_spec f xs x
  refine ⟨_, rfl, ?_, ?_⟩
  · rcases hm with h' | h'
    · exact List.mem_cons.mpr (Or.inl h')
    · exact List.mem_cons_of_mem x h'
  · intro z hz
    rcases List.mem_cons.mp hz with h' | h'
    · exact h' ▸ hb
    · exact hall z h'

/-- C5: `best` returns none for an absent or empty metric name and when no
run carries the metric; otherwise it returns a candidate run that minimizes
the metric when `_should_minimize` holds (name contains `loss`/`error` or
starts with `wer`, case-insensitively) and maximizes it otherwise; on the
spec's examples it picks the `val_loss = 0.2` and the `accuracy = 0.9`
entries. -/
theorem C5_history_best_spec :
    (∀ runs, historyBest runs Option.none = Option.none) ∧
    (∀ runs, historyBest runs (some "") = Option.none) ∧
    (∀ runs s, runs.filter (fun r => dictMem s r.metrics) = [] →
      historyBest runs (some s) = Option.none) ∧
    (∀ runs s, s ≠ "" → ∀ r0 rs,
      runs.filter (fun r => dictMem s r.metrics) = r0 :: rs →
      ∃ m, historyBest runs (some s) = some m ∧ m ∈ r0 :: rs ∧
        (shouldMinimize s = true →
          ∀ x ∈ r0 :: rs, metricVal s m ≤ metricVal s x) ∧
        (shouldMinimize s = false →
          ∀ x ∈ r0 :: rs, metricVal s x ≤ metricVal s m)) ∧
    historyBest c5lossRuns (some "val_loss") =
      some (mkSummary "r2" [("val_loss", mkRat 1 5)]) ∧
    historyBest c5accRuns (some "accuracy") =
      some (mkSummary "a2" [("accuracy", mkRat 9 10)]) := by
  refine ⟨fun _ => rfl, fun _ => rfl, ?_, ?_, rfl, rfl⟩
  · intro runs s hf
    by_cases hs : s = ""
    · simp [historyBest, hs]
    · simp [historyBest, hs, hf]
  · intro runs s hs r0 rs hf
    rw [historyBest, if_neg hs, hf]
    simp only [List.isEmpty_cons, Bool.false_eq_true, if_false]
    by_cases hmin : shouldMinimize s
    · rw [if_pos hmin]
      obtain ⟨m, hEq, hMem, hAll⟩ := pyMinBy_spec (metricVal s) r0 rs
      exact ⟨m, hEq, hMem, fun _ => hAll, fun hc => absurd hmin (by simp [hc])⟩
    · rw [if_neg hmin]
      obtain ⟨m, hEq, hMem, hAll⟩ := pyMaxBy_spec (metricVal s) r0 rs
      refine ⟨m, hEq, hMem, fun hc => absurd hc (by simpa using hmin), fun _ => hAll⟩

/-- C5 witness: the general clause applied to the `val_loss` example
history. -/
theorem C5_history_best_spec_witness :
    ("val_loss" ≠ "") ∧
    (c5lossRuns.filter (fun r => dictMem "val_loss" r.metrics) =
      mkSummary "r1" [("val_loss", mkRat 1 2)] ::
        [mkSummary "r2" [("val_loss", mkRat 1 5)],
         mkSummary "r3" [("val_loss", mkRat 4 5)]]) ∧
    ∃ m, historyBest c5lossRuns (some "val_loss") = some m ∧
      m ∈ mkSummary "r1" [("val_loss", mkRat 1 2)] ::
        [mkSummary "r2" [("val_loss", mkRat 1 5)],
         mkSummary "r3" [("val_loss", mkRat 4 5)]] ∧
      (shouldMinimize "val_loss" = true →
        ∀ x ∈ mkSummary "r1" [("val_loss", mkRat 1 2)] ::
          [mkSummary "r2" [("val_loss", mkRat 1 5)],
           mkSummary "r3" [("val_loss", mkRat 4 5)]],
          metricVal "val_loss" m ≤ metricVal "val_loss" x) ∧
      (shouldMinimize "val_loss" = false →
        ∀ x ∈ mkSummary "r1" [("val_loss", mkRat 1 2)] ::
          [mkSummary "r2" [("val_loss", mkRat 1 5)],
           mkSummary "r3" [("val_loss", mkRat 4 5)]],
          metricVal "val_loss" x ≤ metricVal "val_loss" m) :=
  ⟨by decide, rfl,
   C5_history_best_spec.2.2.2.1 c5lossRuns "val_loss" (by decide) _ _ rfl⟩

/-- C6: constructing the history store over an existing `history.json` whose
content does not parse as JSON does not raise — the embedding is total —
and it starts with an empty run list after renaming the original file to
the `.corrupted` name, preserving its content there. -/
theorem C6_corrupted_history (fs : FS) (path content : String)
    (hread : fsRead fs path = some content)
    (hbad : jsonLoads content = Option.none) :
    (historyInit fs path).1 = PyVal.dict [("runs", PyVal.list [])] ∧
    fsRead (historyInit fs path).2 (pathWithSuffix path ".corrupted") =
      some content := by
  have hread' : lookupStr path fs = some content := hread
  simp only [historyInit, hread, hbad]
  refine ⟨trivial, ?_⟩
  simp only [fsRename, fsRead, hread']
  exact lookupStr_dictSet_self _ _ _

/-- C6 witness: a concrete invalid `history.json`. -/
theorem C6_corrupted_history_witness :
    fsRead [("/state/history.json", "not json")] "/state/history.json" =
      some "not json" ∧
    jsonLoads "not json" = Option.none ∧
    (historyInit [("/state/history.json", "not json")] "/state/history.json").1 =
      PyVal.dict [("runs", PyVal.list [])] ∧
    fsRead (historyInit [("/state/history.json", "not json")]
      "/state/history.json").2 "/state/history.corrupted" = some "not json" := by
  have h := C6_corrupted_history [("/state/history.json", "not json")]
    "/state/history.json" "not json" rfl rfl
  exact ⟨rfl, rfl, h.1, h.2⟩

/-- C7: in the extractor's final merge, independent parameters are written
first and every configuration-dictionary entry is layered on top (bare key
for a recognized dictionary name, `dictname.key` otherwise), so the last
dictionary write for a key wins regardless of any same-named independent
variable; when no dictionary write touches a key, the independent
parameters decide it.  On the example — `lr = 0.001` with
`config = {"lr": 0.01, "batch_size": 64}` — extraction yields `lr = 0.01`
and `batch_size = 64`. -/
theorem C7_config_dict_wins :
    (∀ stmts k v,
      lastWrite (configDictWrites (visitModule stmts).config_dicts) k = some v →
      lookupStr k (extractFromCode stmts) = some v) ∧
    (∀ stmts k,
      lastWrite (configDictWrites (visitModule stmts).config_dicts) k = Option.none →
      lookupStr k (extractFromCode stmts) =
        lookupStr k (dictUpdate [] (visitModule stmts).extracted_params)) ∧
    extractFromCode c7stmts =
      [("lr", PyVal.float (mkRat 1 100)), ("batch_size", PyVal.int 64)] := by
  refine ⟨?_, ?_, rfl⟩
  · intro stmts k v hw
    have h := lookupStr_dictUpdate (dictUpdate [] (visitModule stmts).extracted_params)
      (configDictWrites (visitModule stmts).config_dicts) k
    rw [extractFromCode, h]
    rw [lastWrite] at hw
    rw [hw]
  · intro stmts k hw
    have h := lookupStr_dictUpdate (dictUpdate [] (visitModule stmts).extracted_params)
      (configDictWrites (visitModule stmts).config_dicts) k
    rw [extractFromCode, h]
    rw [lastWrite] at hw
    rw [hw]

/-- C7 witness: the dictionary-wins clause applied to the example module,
where the last dictionary write for `lr` is `0.01`. -/
theorem C7_config_dict_wins_witness :
    lastWrite (configDictWrites (visitModule c7stmts).config_dicts) "lr" =
      some (PyVal.float (mkRat 1 100)) ∧
    lookupStr "lr" (extractFromCode c7stmts) = some (PyVal.float (mkRat 1 100)) :=
  ⟨rfl, C7_config_dict_wins.1 c7stmts "lr" (PyVal.float (mkRat 1 100)) rfl⟩

/-! ## Guardian finalization lemmas -/

theorem guardianFinalize_runRecordFile (st1 : GuardianState) (env : GuardianEnv) :
    (guardianFinalize st1 env).runRecordFile =
      some (recordToDict (guardianFinalize st1 env).record) := rfl

theorem guardianFinalize_historyRuns (st1 : GuardianState) (env : GuardianEnv) :
    (guardianFinalize st1 env).historyRuns =
      st1.historyRuns ++ [summaryOfRecord (guardianFinalize st1 env).record] := rfl

theorem guardianFinalize_reportFile (st1 : GuardianState) (env : GuardianEnv) :
    ((guardianFinalize st1 env).reportFile).isSome = true := rfl

theorem guardianFinalize_status (st1 : GuardianState) (env : GuardianEnv) :
    (guardianFinalize st1 env).record.status = st1.record.status := by
  simp only [guardianFinalize, reporterGenerate]
  split_ifs <;> rfl

theorem guardianFinalize_exit_code (st1 : GuardianState) (env : GuardianEnv) :
    (guardianFinalize st1 env).record.exit_code = st1.record.exit_code := by
  simp only [guardianFinalize, reporterGenerate]
  split_ifs <;> rfl

theorem guardianFinalize_metrics (st1 : GuardianState) (env : GuardianEnv) :
    (guardianFinalize st1 env).record.metrics =
      (if ((aggregateMetrics env.specMetrics env.metricsFile env.paramsFile
            st1.record.config_values).1).isEmpty then st1.record.metrics
       else dictUpdate st1.record.metrics
         (aggregateMetrics env.specMetrics env.metricsFile env.paramsFile
           st1.record.config_values).1) := by
  simp only [guardianFinalize, reporterGenerate]
  split_ifs <;> rfl

/-- C2: on every termination path of `execute` — normal exit, keyboard
interrupt, or any other exception — the finalization phase runs before
control returns: the aggregated metrics are merged into the record, the run
record file holds the final record's serialization, the report is
generated, and a summary of the final record is appended to the history
ledger; on the interrupt path the record's status is `interrupted` and the
interrupt is re-raised after finalization, on the exception path the
exception is re-raised, and on the normal path the exit code is returned
with status `succeeded`/`failed` by exit code. -/
theorem C2_execute_always_finalizes (st : GuardianState) (env : GuardianEnv) :
    (guardianExecute st env).2.runRecordFile =
      some (recordToDict (guardianExecute st env).2.record) ∧
    (guardianExecute st env).2.historyRuns =
      st.historyRuns ++ [summaryOfRecord (guardianExecute st env).2.record] ∧
    ((guardianExecute st env).2.reportFile).isSome = true ∧
    (guardianExecute st env).2.record.metrics =
      (if ((aggregateMetrics env.specMetrics env.metricsFile env.paramsFile
            st.record.config_values).1).isEmpty then st.record.metrics
       else dictUpdate st.record.metrics
         (aggregateMetrics env.specMetrics env.metricsFile env.paramsFile
           st.record.config_values).1) ∧
    (env.outcome = RunOutcome.interrupt →
      (guardianExecute st env).2.record.status = "interrupted" ∧
      (guardianExecute st env).1 = ExecResult.raisedInterrupt) ∧
    (∀ msg, env.outcome = RunOutcome.failure msg →
      (guardianExecute st env).2.record.status = "failed" ∧
      (guardianExecute st env).1 = ExecResult.raisedError msg) ∧
    (∀ code, env.outcome = RunOutcome.completed code →
      (guardianExecute st env).1 = ExecResult.returned code ∧
      (guardianExecute st env).2.record.status =
        (if code = 0 then "succeeded" else "failed")) := by
  obtain ⟨outc, now, snapNow, sm, mf, pf⟩ := env
  cases outc with
  | completed code =>
    refine ⟨rfl, rfl, rfl, guardianFinalize_metrics _ _, ?_, ?_, ?_⟩
    · intro h; simp at h
    · intro msg h; simp at h
    · intro c hc
      injection hc with h0
      subst h0
      constructor
      · show ExecResult.returned ((guardianFinalize _ _).record.exit_code.getD 0) =
          ExecResult.returned code
        rw [guardianFinalize_exit_code]
        rfl
      · show (guardianFinalize _ _).record.status = _
        rw [guardianFinalize_status]
        rfl
  | interrupt =>
    refine ⟨rfl, rfl, rfl, guardianFinalize_metrics _ _, ?_, ?_, ?_⟩
    · intro _
      refine ⟨?_, rfl⟩
      show (guardianFinalize _ _).record.status = _
      rw [guardianFinalize_status]
      rfl
    · intro msg h; simp at h
    · intro c hc; simp at hc
  | failure msg =>
    refine ⟨rfl, rfl, rfl, guardianFinalize_metrics _ _, ?_, ?_, ?_⟩
    · intro h; simp at h
    · intro m hm
      injection hm with h0
      subst h0
      refine ⟨?_, rfl⟩
      show (guardianFinalize _ _).record.status = _
      rw [guardianFinalize_status]
      rfl
    · intro c hc; simp at hc

/-- C2 witness: an interrupted run of a concrete guardian state is fully
finalized — persisted record with status `interrupted`, appended history
entry — and the interrupt is re-raised. -/
theorem C2_execute_always_finalizes_witness :
    c2env.outcome = RunOutcome.interrupt ∧
    (guardianExecute c2state c2env).2.record.status = "interrupted" ∧
    (guardianExecute c2state c2env).1 = ExecResult.raisedInterrupt ∧
    (guardianExecute c2state c2env).2.runRecordFile =
      some (recordToDict (guardianExecute c2state c2env).2.record) ∧
    (guardianExecute c2state c2env).2.historyRuns =
      c2state.historyRuns ++ [summaryOfRecord (guardianExecute c2state c2env).2.record] := by
  have h := C2_execute_always_finalizes c2state c2env
  exact ⟨rfl, (h.2.2.2.2.1 rfl).1, (h.2.2.2.2.1 rfl).2, h.1, h.2.1⟩

/-! ## Fingerprint lemmas -/

/-- The canonical payload is the sorted-key serialization
`{"command": …, "configs": …, "env": …, "metadata": …}` with the four
members' serializations spliced in. -/
theorem payload_shape (c : String) (m : List (String × PyVal)) (cfg : List ConfigSource)
    (e : List (String × PyVal)) :
    buildFingerprintPayload c m cfg e =
      "\x7b\"command\": ".data ++ (jsonDumps (PyVal.str c) ++
      (", \"configs\": ".data ++ (jsonDumps (configsField cfg) ++
      (", \"env\": ".data ++ (jsonDumps (PyVal.dict e) ++
      (", \"metadata\": ".data ++ (jsonDumps (PyVal.dict m) ++ "\x7d".data))))))) := by
  show jsonDumpsRaw _ = _
  simp only [jsonDumps, sortDeep, sortDeepKVs, sortPairsByKey, List.foldr,
    sortPairsByKey.insertPair, strLtB, charListLt, jsonDumpsRaw, jsonDumpsJoinKV,
    jsonStrLit, List.append_assoc]
  simp [jsonEscapeChar]

theorem foldl_word_length {α : Type} (step : List Nat → α → List Nat)
    (hstep : ∀ st i, (step st i).length = 8) (l : List α) (st : List Nat)
    (hst : st.length = 8) : (l.foldl step st).length = 8 := by
  induction l generalizing st with
  | nil => exact hst
  | cons i rest ih => exact ih _ (hstep st i)

theorem sha256Compress_length (h block : List Nat) (hh : h.length = 8) :
    (sha256Compress h block).length = 8 := by
  have hout : ((List.range 64).foldl
      (fun st i =>
        let a := st.getD 0 0
        let b := st.getD 1 0
        let c := st.getD 2 0
        let d := st.getD 3 0
        let e := st.getD 4 0
        let f := st.getD 5 0
        let g := st.getD 6 0
        let hh := st.getD 7 0
        let S1 := (rotr 6 e) ^^^ (rotr 11 e) ^^^ (rotr 25 e)
        let ch := (e &&& f) ^^^ (notW32 e &&& g)
        let t1 := w32 (hh + S1 + ch + sha256K.getD i 0 +
          (sha256Schedule block).getD i 0)
        let S0 := (rotr 2 a) ^^^ (rotr 13 a) ^^^ (rotr 22 a)
        let mj := (a &&& b) ^^^ (a &&& c) ^^^ (b &&& c)
        let t2 := w32 (S0 + mj)
        [w32 (t1 + t2), a, b, c, w32 (d + t1), e, f, g]) h).length = 8 := by
    apply foldl_word_length
    · intro st i; rfl
    · exact hh
  rw [sha256Compress, List.length_zipWith, hh, hout]
  rfl

theorem foldl_compress_length (chunks : List (List Nat)) (h : List Nat)
    (hh : h.length = 8) : (chunks.foldl sha256Compress h).length = 8 := by
  induction chunks generalizing h with
  | nil => exact hh
  | cons b rest ih => exact ih _ (sha256Compress_length _ _ hh)

theorem sha256Words_length (msg : List Nat) : (sha256Words msg).length = 8 :=
  foldl_compress_length _ _ rfl

theorem foldl_digest_bound (l : List Nat) (acc : Nat) :
    l.foldl (fun a w => a * 4294967296 + w % 4294967296) acc <
      (acc + 1) * 4294967296 ^ l.length := by
  induction l generalizing acc with
  | nil => simp
  | cons w rest ih =>
    calc rest.foldl (fun a w => a * 4294967296 + w % 4294967296)
          (acc * 4294967296 + w % 4294967296) <
        (acc * 4294967296 + w % 4294967296 + 1) * 4294967296 ^ rest.length := ih _
      _ ≤ ((acc + 1) * 4294967296) * 4294967296 ^ rest.length := by
          have hw : w % 4294967296 < 4294967296 := Nat.mod_lt _ (by norm_num)
          have : acc * 4294967296 + w % 4294967296 + 1 ≤ (acc + 1) * 4294967296 := by
            nlinarith
          exact Nat.mul_le_mul_right _ this
      _ = (acc + 1) * 4294967296 ^ (rest.length + 1) := by ring
      _ = (acc + 1) * 4294967296 ^ (w :: rest).length := by rw [List.length_cons]

theorem sha256Nat_lt (msg : List Nat) : sha256Nat msg < 4294967296 ^ 8 := by
  have h := foldl_digest_bound (sha256Words msg) 0
  rw [sha256Words_length msg] at h
  simpa [sha256Nat] using h

/-- C3 counterexample (to the universal sensitivity half of the claim): the
digest is 256 bits while the command input ranges over infinitely many
strings, so two different commands with identical fingerprints exist —
"changing any single input field changes the digest" cannot hold for every
pair of inputs. -/
theorem C3_counterexample_digest_collision :
    ∃ c1 c2 : String, c1 ≠ c2 ∧
      buildFingerprint c1 [] [] [] = buildFingerprint c2 [] [] [] := by
  have hf := Finite.exists_ne_map_eq_of_infinite
    (fun n : ℕ => (⟨sha256Nat (utf8Encode (buildFingerprintPayload
      (String.mk (List.replicate n 'a')) [] [] [])),
      sha256Nat_lt _⟩ : Fin (4294967296 ^ 8)))
  obtain ⟨n, m, hnm, hv⟩ := hf
  refine ⟨String.mk (List.replicate n 'a'), String.mk (List.replicate m 'a'), ?_, ?_⟩
  · intro h
    apply hnm
    have hd : List.replicate n 'a' = List.replicate m 'a' := congrArg String.data h
    simpa using congrArg List.length hd
  · have hvv : sha256Nat (utf8Encode (buildFingerprintPayload
        (String.mk (List.replicate n 'a')) [] [] [])) =
      sha256Nat (utf8Encode (buildFingerprintPayload
        (String.mk (List.replicate m 'a')) [] [] [])) := congrArg Fin.val hv
    unfold buildFingerprint sha256Hex
    rw [hvv]

/-- C3 amended: the fingerprint is a pure function of
(command, metadata, config sources, environment snapshot) — identical
inputs give the identical digest — and changing any single one of the four
fields changes the canonical serialized payload that is hashed whenever the
two field values' JSON serializations differ (the digest itself can only be
claimed to change up to SHA-256 collisions, which exist by counting). -/
theorem C3_fingerprint_deterministic_and_payload_sensitive :
    (∀ c m cfg e c' m' cfg' e', c = c' → m = m' → cfg = cfg' → e = e' →
      buildFingerprint c m cfg e = buildFingerprint c' m' cfg' e') ∧
    (∀ c c' m cfg e, jsonDumps (PyVal.str c) ≠ jsonDumps (PyVal.str c') →
      buildFingerprintPayload c m cfg e ≠ buildFingerprintPayload c' m cfg e) ∧
    (∀ m m' c cfg e, jsonDumps (PyVal.dict m) ≠ jsonDumps (PyVal.dict m') →
      buildFingerprintPayload c m cfg e ≠ buildFingerprintPayload c m' cfg e) ∧
    (∀ cfg cfg' c m e, jsonDumps (configsField cfg) ≠ jsonDumps (configsField cfg') →
      buildFingerprintPayload c m cfg e ≠ buildFingerprintPayload c m cfg' e) ∧
    (∀ e e' c m cfg, jsonDumps (PyVal.dict e) ≠ jsonDumps (PyVal.dict e') →
      buildFingerprintPayload c m cfg e ≠ buildFingerprintPayload c m cfg e') := by
  refine ⟨?_, ?_, ?_, ?_, ?_⟩
  · intro c m cfg e c' m' cfg' e' h1 h2 h3 h4
    subst h1; subst h2; subst h3; subst h4; rfl
  · intro c c' m cfg e hne heq
    rw [payload_shape, payload_shape] at heq
    exact hne (List.append_cancel_right (List.append_cancel_left heq))
  · intro m m' c cfg e hne heq
    rw [payload_shape, payload_shape] at heq
    have h1 := List.append_cancel_left heq
    have h2 := List.append_cancel_left h1
    have h3 := List.append_cancel_left h2
    have h4 := List.append_cancel_left h3
    have h5 := List.append_cancel_left h4
    have h6 := List.append_cancel_left h5
    have h7 := List.append_cancel_left h6
    exact hne (List.append_cancel_right h7)
  · intro cfg cfg' c m e hne heq
    rw [payload_shape, payload_shape] at heq
    have h1 := List.append_cancel_left heq
    have h2 := List.append_cancel_left h1
    have h3 := List.append_cancel_left h2
    exact hne (List.append_cancel_right h3)
  · intro e e' c m cfg hne heq
    rw [payload_shape, payload_shape] at heq
    have h1 := List.append_cancel_left heq
    have h2 := List.append_cancel_left h1
    have h3 := List.append_cancel_left h2
    have h4 := List.append_cancel_left h3
    have h5 := List.append_cancel_left h4
    exact hne (List.append_cancel_right h5)

/-- C3 witness: changing only the command from `"a"` to `"b"` (whose
serializations differ) changes the hashed payload; determinism applied at a
concrete input. -/
theorem C3_fingerprint_deterministic_and_payload_sensitive_witness :
    jsonDumps (PyVal.str "a") ≠ jsonDumps (PyVal.str "b") ∧
    buildFingerprintPayload "a" [] [] [] ≠ buildFingerprintPayload "b" [] [] [] ∧
    buildFingerprint "a" [] [] [] = buildFingerprint "a" [] [] [] :=
  ⟨by decide,
   C3_fingerprint_deterministic_and_payload_sensitive.2.1 "a" "b" [] [] [] (by decide),
   C3_fingerprint_deterministic_and_payload_sensitive.1 "a" [] [] [] "a" [] [] []
     rfl rfl rfl rfl⟩

/-! ## param_parser fold lemmas (for C10) -/

theorem lookup_setfold_none {α β : Type} (key : String) (ms : List (String × β))
    (f : β → α) (params : List (String × α))
    (hall : ∀ p ∈ ms, p.1 ≠ key) (h0 : lookupStr key params = Option.none) :
    lookupStr key (ms.foldl (fun acc kv => dictSet acc kv.1 (f kv.2)) params) =
      Option.none := by
  induction ms generalizing params with
  | nil => exact h0
  | cons p rest ih =>
    refine ih _ (fun q hq => hall q (List.mem_cons_of_mem _ hq)) ?_
    rw [lookupStr_dictSet_ne _ _ _ _ (hall p (List.mem_cons_self _ _))]
    exact h0

theorem flagfold_preserve (key : String) (w : PyVal) (flags : List String)
    (params : List (String × PyVal)) (h : lookupStr key params = some w) :
    lookupStr key (flags.foldl
      (fun acc flag => if dictMem flag acc then acc else dictSet acc flag (PyVal.bool true))
      params) = some w := by
  induction flags generalizing params with
  | nil => exact h
  | cons fl rest ih =>
    apply ih
    show lookupStr key
      (if dictMem fl params then params else dictSet params fl (PyVal.bool true)) = some w
    by_cases hm : dictMem fl params
    · rw [if_pos hm]; exact h
    · rw [if_neg hm]
      have hne : fl ≠ key := by
        intro e
        subst e
        exact hm (by simp [dictMem, h])
      rw [lookupStr_dictSet_ne _ _ _ _ hne]
      exact h

theorem flagfold_hits (key : String) (flags : List String)
    (params : List (String × PyVal)) (hk : key ∈ flags)
    (h0 : lookupStr key params = Option.none) :
    lookupStr key (flags.foldl
      (fun acc flag => if dictMem flag acc then acc else dictSet acc flag (PyVal.bool true))
      params) = some (PyVal.bool true) := by
  induction flags generalizing params with
  | nil => cases hk
  | cons fl rest ih =>
    by_cases hfl : fl = key
    · subst hfl
      have hm : ¬ dictMem fl params := by simp [dictMem, h0]
      rw [List.foldl_cons]
      rw [if_neg hm]
      exact flagfold_preserve _ _ _ _ (lookupStr_dictSet_self _ _ _)
    · have hk' : key ∈ rest := by
        rcases List.mem_cons.mp hk with h' | h'
        · exact absurd h'.symm hfl
        · exact h'
      rw [List.foldl_cons]
      by_cases hm : dictMem fl params
      · rw [if_pos hm]; exact ih _ hk' h0
      · rw [if_neg hm]
        exact ih _ hk' (by rw [lookupStr_dictSet_ne _ _ _ _ hfl]; exact h0)

theorem shortfold_preserve (key : String) (hhead : key.data.head? ≠ some '_')
    (ms : List (String × String)) (params : List (String × PyVal)) :
    lookupStr key (ms.foldl
      (fun acc kv => dictSet acc ("_" ++ kv.1) (parseValue kv.2)) params) =
      lookupStr key params := by
  induction ms generalizing params with
  | nil => rfl
  | cons p rest ih =>
    rw [List.foldl_cons, ih]
    refine lookupStr_dictSet_ne _ _ _ _ ?_
    intro e
    apply hhead
    rw [← e]
    simp

/-- C10 amended: when no occurrence of `--key` in the command carries an
accepted long-form value (in particular, a following token that begins with
`-` is rejected by the value pattern) and the flag pass matches `--key`
(followed by whitespace or end of string), `parse_command_params` maps the
key to the boolean `True`; in particular `"--lr -0.5"` yields `lr = True`.
(If another occurrence of `--key` does carry a value, that value wins — see
the counterexample.)  The side condition that the key does not start with
`_` separates it from the short-option namespace (flag keys always start
with a letter). -/
theorem C10_minus_token_gives_flag (command key : String)
    (hlong : ∀ p ∈ rxFindIter (fun _ => paramLongM) command.data, p.1 ≠ key)
    (hflag : key ∈ rxFindIter (fun _ => paramFlagM) command.data)
    (hhead : key.data.head? ≠ some '_') :
    lookupStr key (parseCommandParams command) = some (PyVal.bool true) := by
  simp only [parseCommandParams]
  rw [shortfold_preserve _ hhead]
  exact flagfold_hits _ _ _ hflag
    (lookup_setfold_none _ _ _ _ hlong rfl)

/-! ## log_parser doubling lemmas (for C9) -/

theorem metricM2_eq : metricM2 = metricM1 := rfl

theorem foldl_obs (ms : List ((List Char × List Char) × List Char))
    (h : List (String × List ℚ)) :
    ms.foldl
      (fun h m =>
        match pyFloatOfStr (String.mk m.1.2) with
        | Option.none => h
        | some v0 =>
          let v := if containsSub "%".data (m.2.take 2) then qDiv v0 100 else v0
          let std := standardizeMetricName (toLowerStr (pyStripStr (String.mk m.1.1)))
          dictSet h std ((lookupStr std h).getD [] ++ [v]))
      h =
    histAppendObs h (ms.filterMap
      (fun m =>
        (pyFloatOfStr (String.mk m.1.2)).map
          (fun v0 =>
            (standardizeMetricName (toLowerStr (pyStripStr (String.mk m.1.1))),
             if containsSub "%".data (m.2.take 2) then qDiv v0 100 else v0)))) := by
  induction ms generalizing h with
  | nil => rfl
  | cons m rest ih =>
    rw [List.foldl_cons, List.filterMap_cons]
    cases hv : pyFloatOfStr (String.mk m.1.2) with
    | none =>
      simp only [hv]
      exact ih h
    | some v0 =>
      simp only [hv]
      exact ih _

theorem extractMetricsOne_obs (line : List Char) (h : List (String × List ℚ)) :
    extractMetricsOne metricM1 line h = histAppendObs h (lineObs line) :=
  foldl_obs (rxFindIter metricM1 line) h

theorem extractMetrics_obs (line : List Char) (h : List (String × List ℚ)) :
    extractMetrics line h =
      histAppendObs (histAppendObs h (lineObs line)) (lineObs line) := by
  have h2 : extractMetrics line h =
      extractMetricsOne metricM2 line (extractMetricsOne metricM1 line h) := rfl
  rw [h2, metricM2_eq, extractMetricsOne_obs, extractMetricsOne_obs]

theorem logParse_history (lines : List String) (st : ParsedMetrics) :
    (lines.foldl parseLogLine st).history =
      lines.foldl
        (fun h line =>
          histAppendObs (histAppendObs h
            (if isProgressBar line then [] else lineObs line.data))
            (if isProgressBar line then [] else lineObs line.data)) st.history := by
  induction lines generalizing st with
  | nil => rfl
  | cons l rest ih =>
    rw [List.foldl_cons, List.foldl_cons, ih]
    congr 1
    show (parseLogLine st l).history =
      histAppendObs (histAppendObs st.history
        (if isProgressBar l then [] else lineObs l.data))
        (if isProgressBar l then [] else lineObs l.data)
    simp only [parseLogLine]
    split
    · rfl
    · exact extractMetrics_obs _ _

theorem obsfold_nil (lines : List String) (h : List (String × List ℚ))
    (hobs : lines.flatMap
      (fun line => if isProgressBar line then [] else lineObs line.data) = []) :
    lines.foldl
      (fun h line =>
        histAppendObs (histAppendObs h
          (if isProgressBar line then [] else lineObs line.data))
          (if isProgressBar line then [] else lineObs line.data)) h = h := by
  induction lines generalizing h with
  | nil => rfl
  | cons l rest ih =>
    simp only [List.flatMap_cons, List.append_eq_nil] at hobs
    rw [List.foldl_cons, ih _ hobs.2]
    show histAppendObs (histAppendObs h
      (if isProgressBar l then [] else lineObs l.data))
      (if isProgressBar l then [] else lineObs l.data) = h
    rw [hobs.1]
    rfl

theorem obsfold_single (lines : List String) (n : String) (v : ℚ)
    (hobs : lines.flatMap
      (fun line => if isProgressBar line then [] else lineObs line.data) =
        [(n, v)]) :
    lines.foldl
      (fun h line =>
        histAppendObs (histAppendObs h
          (if isProgressBar line then [] else lineObs line.data))
          (if isProgressBar line then [] else lineObs line.data)) [] =
      [(n, [v, v])] := by
  induction lines with
  | nil => simp at hobs
  | cons l rest ih =>
    simp only [List.flatMap_cons] at hobs
    rw [List.foldl_cons]
    show List.foldl _ (histAppendObs (histAppendObs []
      (if isProgressBar l then [] else lineObs l.data))
      (if isProgressBar l then [] else lineObs l.data)) rest = _
    cases hg : (if isProgressBar l then ([] : List (String × ℚ)) else lineObs l.data) with
    | nil =>
      rw [hg] at hobs
      simp only [List.nil_append] at hobs
      exact ih hobs
    | cons p tail =>
      rw [hg] at hobs
      rw [List.cons_append] at hobs
      injection hobs with hp htail
      rw [List.append_eq_nil] at htail
      obtain ⟨ht1, ht2⟩ := htail
      subst hp
      subst ht1
      have e1 : histAppendObs ([] : List (String × List ℚ)) [(n, v)] = [(n, [v])] := rfl
      have e2 : histAppendObs [(n, [v])] [(n, v)] = [(n, [v, v])] := by
        show dictSet [(n, [v])] n ((lookupStr n [(n, [v])]).getD [] ++ [v]) = [(n, [v, v])]
        have hl : lookupStr n [(n, [v])] = some [v] := by simp [lookupStr]
        rw [hl]
        show dictSet [(n, [v])] n [v, v] = [(n, [v, v])]
        simp [dictSet]
      rw [e1, e2]
      exact obsfold_nil rest _ ht2

theorem parseFold_final (lines : List String) (st : ParsedMetrics) :
    (lines.foldl parseLogLine st).final_metrics = st.final_metrics := by
  induction lines generalizing st with
  | nil => rfl
  | cons l rest ih =>
    rw [List.foldl_cons, ih]
    simp only [parseLogLine]
    split <;> rfl

theorem mem_dictSet {α : Type} (d : List (String × α)) (k : String) (v : α)
    (p : String × α) (hp : p ∈ dictSet d k v) : p.1 = k ∨ p ∈ d := by
  induction d with
  | nil =>
    simp only [dictSet, List.mem_singleton] at hp
    left
    rw [hp]
  | cons q rest ih =>
    obtain ⟨k0, v0⟩ := q
    rw [dictSet] at hp
    by_cases h : k0 = k
    · rw [if_pos h] at hp
      rcases List.mem_cons.mp hp with h1 | h1
      · left; rw [h1]; exact h
      · right; exact List.mem_cons_of_mem _ h1
    · rw [if_neg h] at hp
      rcases List.mem_cons.mp hp with h1 | h1
      · right; rw [h1]; exact List.mem_cons_self _ _
      · rcases ih h1 with h2 | h2
        · left; exact h2
        · right; exact List.mem_cons_of_mem _ h2

theorem extractBest_shape (line : String) (best : List (String × ℚ))
    (hb : ∀ p ∈ best, p.1 = "best_accuracy") :
    ∀ p ∈ extractBestMetrics line best, p.1 = "best_accuracy" := by
  intro p hp
  unfold extractBestMetrics at hp
  split at hp
  · split at hp
    · split at hp
      · rcases mem_dictSet _ _ _ _ hp with h | h
        · exact h
        · exact hb p h
      · exact hb p hp
    · exact hb p hp
  · exact hb p hp

theorem parseFold_best (lines : List String) (st : ParsedMetrics)
    (hb : ∀ p ∈ st.best_metrics, p.1 = "best_accuracy") :
    ∀ p ∈ (lines.foldl parseLogLine st).best_metrics, p.1 = "best_accuracy" := by
  induction lines generalizing st with
  | nil => exact hb
  | cons l rest ih =>
    rw [List.foldl_cons]
    apply ih
    simp only [parseLogLine]
    split
    · exact hb
    · exact extractBest_shape l st.best_metrics hb

theorem lookupStr_eq_none {α : Type} (k : String) (l : List (String × α))
    (h : ∀ p ∈ l, p.1 ≠ k) : lookupStr k l = Option.none := by
  induction l with
  | nil => rfl
  | cons q rest ih =>
    obtain ⟨k0, v0⟩ := q
    rw [lookupStr, if_neg (h (k0, v0) (List.mem_cons_self _ _))]
    exact ih (fun p hp => h p (List.mem_cons_of_mem _ hp))

theorem data_append_eq (a b : String) : (a ++ b).data = a.data ++ b.data := by
  cases a
  cases b
  rfl

theorem appendNe_head (a b n m : String) (c d : Char) (ta tb : List Char)
    (ha : a.data = c :: ta) (hb : b.data = d :: tb) (hcd : c ≠ d) :
    a ++ n ≠ b ++ m := by
  intro e
  have h2 := congrArg String.data e
  rw [data_append_eq, data_append_eq, ha, hb, List.cons_append,
    List.cons_append] at h2
  injection h2 with hc _
  exact hcd hc

theorem appendNe_single (a n b : String) (c d : Char) (ta tb : List Char)
    (ha : a.data = c :: ta) (hb : b.data = d :: tb) (hcd : c ≠ d) :
    a ++ n ≠ b := by
  intro e
  have h2 := congrArg String.data e
  rw [data_append_eq, ha, hb, List.cons_append] at h2
  injection h2 with hc _
  exact hcd hc

theorem finalize_single (st : ParsedMetrics) (n : String) (v : ℚ)
    (hh : st.history = [(n, [v, v])]) (hf : st.final_metrics = [])
    (hb : ∀ p ∈ st.best_metrics, p.1 = "best_accuracy") :
    lookupStr ("final_" ++ n) (finalizeMetrics st).final_metrics =
      some (PyVal.float v) ∧
    lookupStr ("initial_" ++ n) (finalizeMetrics st).final_metrics =
      some (PyVal.float v) := by
  obtain ⟨fm, hist, ep, bm, cfg⟩ := st
  simp only at hh hf hb
  subst hh
  subst hf
  have hfm : (finalizeMetrics ⟨[], [(n, [v, v])], ep, bm, cfg⟩).final_metrics =
      (if ep > 0 then
        dictSet (dictUpdate (dictSet (dictSet [] ("final_" ++ n) (PyVal.float v))
            ("initial_" ++ n) (PyVal.float v))
          (bm.map (fun kv => (kv.1, PyVal.float kv.2))))
          "epochs_completed" (PyVal.int ep)
      else
        dictUpdate (dictSet (dictSet [] ("final_" ++ n) (PyVal.float v))
            ("initial_" ++ n) (PyVal.float v))
          (bm.map (fun kv => (kv.1, PyVal.float kv.2)))) := rfl
  have hne1 : ("initial_" ++ n) ≠ ("final_" ++ n) :=
    appendNe_head "initial_" "final_" n n 'i' 'f' _ _ rfl rfl (by decide)
  have hbf : ("best_accuracy" : String) ≠ "final_" ++ n :=
    (appendNe_single "final_" n "best_accuracy" 'f' 'b' _ _ rfl rfl (by decide)).symm
  have hbi : ("best_accuracy" : String) ≠ "initial_" ++ n :=
    (appendNe_single "initial_" n "best_accuracy" 'i' 'b' _ _ rfl rfl (by decide)).symm
  have hef : ("epochs_completed" : String) ≠ "final_" ++ n :=
    (appendNe_single "final_" n "epochs_completed" 'f' 'e' _ _ rfl rfl (by decide)).symm
  have hei : ("epochs_completed" : String) ≠ "initial_" ++ n :=
    (appendNe_single "initial_" n "epochs_completed" 'i' 'e' _ _ rfl rfl (by decide)).symm
  have hb2f : ∀ p ∈ (bm.map (fun kv => (kv.1, PyVal.float kv.2))).reverse,
      p.1 ≠ "final_" ++ n := by
    intro p hp
    rw [List.mem_reverse] at hp
    obtain ⟨q, hq, rfl⟩ := List.mem_map.mp hp
    show q.1 ≠ "final_" ++ n
    rw [hb q hq]
    exact hbf
  have hb2i : ∀ p ∈ (bm.map (fun kv => (kv.1, PyVal.float kv.2))).reverse,
      p.1 ≠ "initial_" ++ n := by
    intro p hp
    rw [List.mem_reverse] at hp
    obtain ⟨q, hq, rfl⟩ := List.mem_map.mp hp
    show q.1 ≠ "initial_" ++ n
    rw [hb q hq]
    exact hbi
  rw [hfm]
  constructor
  · split
    · rw [lookupStr_dictSet_ne _ _ _ _ hef, lookupStr_dictUpdate,
        lookupStr_eq_none _ _ hb2f]
      show lookupStr ("final_" ++ n)
        (dictSet (dictSet [] ("final_" ++ n) (PyVal.float v))
          ("initial_" ++ n) (PyVal.float v)) = some (PyVal.float v)
      rw [lookupStr_dictSet_ne _ _ _ _ hne1]
      exact lookupStr_dictSet_self _ _ _
    · rw [lookupStr_dictUpdate, lookupStr_eq_none _ _ hb2f]
      show lookupStr ("final_" ++ n)
        (dictSet (dictSet [] ("final_" ++ n) (PyVal.float v))
          ("initial_" ++ n) (PyVal.float v)) = some (PyVal.float v)
      rw [lookupStr_dictSet_ne _ _ _ _ hne1]
      exact lookupStr_dictSet_self _ _ _
  · split
    · rw [lookupStr_dictSet_ne _ _ _ _ hei, lookupStr_dictUpdate,
        lookupStr_eq_none _ _ hb2i]
      show lookupStr ("initial_" ++ n)
        (dictSet (dictSet [] ("final_" ++ n) (PyVal.float v))
          ("initial_" ++ n) (PyVal.float v)) = some (PyVal.float v)
      exact lookupStr_dictSet_self _ _ _
    · rw [lookupStr_dictUpdate, lookupStr_eq_none _ _ hb2i]
      show lookupStr ("initial_" ++ n)
        (dictSet (dictSet [] ("final_" ++ n) (PyVal.float v))
          ("initial_" ++ n) (PyVal.float v)) = some (PyVal.float v)
      exact lookupStr_dictSet_self _ _ _

/-- C9: because `_extract_metrics` runs two patterns that are identical under
`re.IGNORECASE`, every metric occurrence is recorded twice; for any log text
carrying exactly one metric observation `(n, v)`, the parsed history is
`[v, v]` and the final metrics contain both `final_<n>` and `initial_<n>`,
equal to each other (and to `v`), despite the single textual occurrence. -/
theorem C9_single_metric_observation_doubled (text n : String) (v : ℚ)
    (hobs : textObs text = [(n, v)]) :
    (logParse text).history = [(n, [v, v])] ∧
    lookupStr ("final_" ++ n) (logParse text).final_metrics =
      some (PyVal.float v) ∧
    lookupStr ("initial_" ++ n) (logParse text).final_metrics =
      some (PyVal.float v) := by
  have hlog : logParse text = finalizeMetrics
      (((splitChar '\n' text.data).map String.mk).foldl parseLogLine
        ParsedMetrics.initial) := rfl
  have hhist : (((splitChar '\n' text.data).map String.mk).foldl parseLogLine
      ParsedMetrics.initial).history = [(n, [v, v])] := by
    rw [logParse_history]
    exact obsfold_single _ _ _ hobs
  have hfin : (((splitChar '\n' text.data).map String.mk).foldl parseLogLine
      ParsedMetrics.initial).final_metrics = [] := parseFold_final _ _
  have hbm : ∀ p ∈ (((splitChar '\n' text.data).map String.mk).foldl parseLogLine
      ParsedMetrics.initial).best_metrics, p.1 = "best_accuracy" :=
    parseFold_best _ _ (fun p hp => absurd hp (List.not_mem_nil p))
  refine ⟨?_, ?_⟩
  · rw [hlog]
    exact hhist
  · rw [hlog]
    exact finalize_single _ _ _ hhist hfin hbm

/-- C9 witness: `"loss: 0.5"` carries the single observation
`("loss", 1/2)`; the parsed result doubles it. -/
theorem C9_single_metric_observation_doubled_witness :
    textObs "loss: 0.5" = [("loss", mkRat 1 2)] ∧
    ((logParse "loss: 0.5").history = [("loss", [mkRat 1 2, mkRat 1 2])] ∧
     lookupStr ("final_" ++ "loss") (logParse "loss: 0.5").final_metrics =
       some (PyVal.float (mkRat 1 2)) ∧
     lookupStr ("initial_" ++ "loss") (logParse "loss: 0.5").final_metrics =
       some (PyVal.float (mkRat 1 2))) :=
  ⟨rfl, C9_single_metric_observation_doubled "loss: 0.5" "loss" (mkRat 1 2) rfl⟩

/-- C10 witness: the amended claim applied to `"--lr -0.5"`. -/
theorem C10_minus_token_gives_flag_witness :
    (∀ p ∈ rxFindIter (fun _ => paramLongM) "--lr -0.5".data, p.1 ≠ "lr") ∧
    "lr" ∈ rxFindIter (fun _ => paramFlagM) "--lr -0.5".data ∧
    lookupStr "lr" (parseCommandParams "--lr -0.5") = some (PyVal.bool true) :=
  ⟨by decide, by decide,
   C10_minus_token_gives_flag "--lr -0.5" "lr" (by decide) (by decide) (by decide)⟩

end SciAgent
